import Mathlib

/-! Verification development for opm-simulators.

Shallow embedding of
* `opm/simulators/flow/MissingFeatures.cpp` (keyword validation pre-pass),
* `opm/simulators/aquifers/AquiferFetkovich.hpp` (Fetkovich aquifer influx),
* `opm/autodiff/StandardWell.hpp` (well local assembly, declarations only).

`Scalar` (C++ `double`) is modelled by exact rationals: the statements below are
the exact-arithmetic content of the numerical code.
-/

namespace Opm

/-! MissingFeatures.cpp -/

namespace MissingFeatures

/-- Error categories of `ParseContext` that `checkKeywords` hands to `handleError`. -/
inductive ErrorKey where
  | SIMULATOR_KEYWORD_NOT_SUPPORTED
  | SIMULATOR_KEYWORD_ITEM_NOT_SUPPORTED
  deriving DecidableEq, Repr

/-- Source position of a keyword (`keyword.location()`). -/
structure KeywordLocation where
  filename : String
  lineno : Nat
  deriving DecidableEq, Repr

/-- One call `parseContext.handleError(key, msg, errorGuard)`. -/
structure ErrorReport where
  key : ErrorKey
  msg : String
  deriving DecidableEq, Repr

/-- The `ErrorGuard` as seen by this file: the sequence of errors handed to it. -/
abbrev ErrorGuard := List ErrorReport

/-- Embeds `parseContext.handleError(key, msg, errorGuard)`: the parser library records the error;
the call is taken to return normally. -/
def handleError (key : ErrorKey) (msg : String) (errorGuard : ErrorGuard) : ErrorGuard :=
  errorGuard ++ [⟨key, msg⟩]

/-- What `checkKeywords` reads of a `DeckKeyword` (a class of the parser library): its name,
its location, and for an item name the first value of that item in record 0, that is
`keyword.getRecord(0).getItem(item).get<T>(0)` for `T = std::string` and `T = int`. -/
structure DeckKeyword where
  name : String
  location : KeywordLocation
  getString : String → String
  getInt : String → Int

/-- A deck is its sequence of keywords (`deck.size()`, `deck.getKeyword(idx)`). -/
abbrev Deck := List DeckKeyword

/-- Embeds `PartiallySupported<T>`: the item of a keyword and the one value flow supports. -/
structure PartiallySupported (T : Type) where
  item : String
  item_value : T

/-- Embeds `std::multimap<std::string, PartiallySupported<T>>`, kept as the entries in insertion
order; entries with equivalent keys keep their insertion order in a C++11 multimap. -/
abbrev OptionMap (T : Type) := List (String × PartiallySupported T)

/-- Embeds `addSupported<Keyword, Item, T>(map, itemValue)`: `map.insert` of the pair
`(Keyword::keywordName, {Item::itemName, itemValue})`. -/
def addSupported {T : Type} (keywordName itemName : String) (map : OptionMap T) (itemValue : T) :
    OptionMap T :=
  map ++ [(keywordName, ⟨itemName, itemValue⟩)]

/-- The iterator range `[map.lower_bound(name), map.upper_bound(name))`: exactly the entries
whose key is `name`. -/
def equalRange {T : Type} (map : OptionMap T) (name : String) : OptionMap T :=
  map.filter (fun e => e.1 == name)

/-- Message built in `checkOptions`; `cast` is `boost::lexical_cast<std::string>`. -/
def itemMsg {T : Type} (cast : T → String) (keyword : DeckKeyword)
    (e : String × PartiallySupported T) : String :=
  "For keyword \x27" ++ e.1 ++ "\x27 only value " ++ cast e.2.item_value
    ++ " in item " ++ e.2.item ++ " is supported by flow.\n"
    ++ "In file " ++ keyword.location.filename ++ ", line " ++ toString keyword.location.lineno ++ "\n"

/-- Template `checkOptions<T>`: for every entry registered under the keyword name whose
supported value differs from the deck value, one SIMULATOR_KEYWORD_ITEM_NOT_SUPPORTED error. -/
def checkOptions {T : Type} [DecidableEq T] (get : DeckKeyword → String → T) (cast : T → String)
    (keyword : DeckKeyword) (map : OptionMap T) (errorGuard : ErrorGuard) : ErrorGuard :=
  (equalRange map keyword.name).foldl
    (fun eg e =>
      if get keyword e.2.item ≠ e.2.item_value then
        handleError ErrorKey.SIMULATOR_KEYWORD_ITEM_NOT_SUPPORTED (itemMsg cast keyword e) eg
      else eg)
    errorGuard

/-- The initializer list of `unsupported_keywords` as the compiler reads it: adjacent string
literals that are not separated by a comma are one literal. -/
def unsupported_keywords_init : List String :=
  [
   "ACTION", "ACTIONG", "ACTIONR", "ACTIONS", "ACTIONW", "ACTPARAM",
   "ADSALNOD", "ADDZCORN", "AITS", "AITSOFF", "ALKADS", "ALKALINE",
   "ALKROCK", "API", "ALPOLADS", "ALSURFAD", "ALSURFST", "AMALGAM",
   "APIGROUP", "APILIM", "APIVD", "AQANCONL", "AQANNC", "AQANTRC",
   "AQUALIST", "AQUCHGAS", "AQUCHWAT", "AQUCON", "AQUCWFAC", "AQUFET",
   "AQUFLUX", "AQUNNC", "AQUNUM", "AUTOCOAR", "AUTOREF", "BDENSITY",
   "BIGMODEL", "BGGI", "BOGI", "BOUNDARY", "BPARA", "BPIDIMS",
   "BRANPROP", "BTOBALFA", "BTOBALFV", "CALTRAC", "CARFIN", "CART",
   "CBMOPTS", "CECON", "CECONT", "COAL", "COALADS", "COALNUM",
   "COALPP", "COARSEN", "COLLAPSE", "COLUMNS", "CBMOPTS", "COMPDATX",
   "COMPDATL", "COMPDATM", "COMPDATL", "COMPIMB", "COMPFLSH", "COMPINJK",
   "COMPLMPL", "COMPOFF", "COMPRIV", "COMPRP", "COMPRPL", "COMPSEGL",
   "COMPVE", "COMPVEL", "CSKIN", "CONNECTION", "CONNECTION_PROBE", "COORDSYS",
   "COPYBOX", "COPYREG", "CRITPERM", "DATE", "DATUMR", "DATUMRX",
   "DCQDEFN", "DEBUG", "DELAYACT", "DEPTHTAB", "DIAGDISP", "DIFF",
   "DIFFC", "DIFFCOAL", "DIFFDP", "DIFFMMF", "DIFFMR", "DIFFMR-",
   "DIFFMTHT", "DIFFMTHT-", "DIFFMX", "DIFFMX-", "DIFFMY", "DIFFMY-",
   "DIFFMZ", "DIFFMZ-", "DIFFR", "DIFFTHT", "DIFFUSEDIFFX", "DIFFY",
   "DIFFZ", "DIMPES", "DIMPLICT", "DISPDIMS", "DISPERSE", "DOMAINS",
   "DPGRID", "DPKRMOD", "DPNUM", "DR", "DRV", "DRILPRI",
   "DSPDEINT", "DUALPERM", "DUALPORO", "DUMPCUPL", "DUMPFLUX", "DYNAMICR",
   "DYNRDIMS", "DYNAMICR", "DZMATRIX", "DZMTRX", "DZMTRXV", "DZNET",
   "ECHO", "ECLMC", "EDITNNCR", "EHYSTRR", "ENDDYN", "ENDFIN",
   "ENDNUM", "ENDSKIP", "ENKRVD", "ENKSRVD", "ENPCVD", "ENPTVD",
   "ENSPCVD", "EPSDBGS", "EPSDEBUG", "EQLZCORN", "EQUALREG", "ESSNODE",
   "EXCAVATE", "EXCEL", "EXTFIN", "EXTHOST", "EXTRAPMS", "EXTREPGL",
   "FBHPDEF", "FHERCHBL", "FRICTION", "FIPSEP", "FLUXREG", "FLUXTYPE",
   "FMTHMD", "FOAMDCYO", "FOAMDCYW", "FOAMFCN", "FOAMFRM", "FOAMFSOFOAMFST",
   "FOAMFSW", "FOAMMOBP", "FOAMMOBS", "FORMFEED", "FULLIMP", "GEGONT",
   "GASBEGIN", "GASCONC", "GASEND", "GASFCOMP", "GASFDECR", "GASFDELC",
   "GASFIELD", "GASFTARG", "GASMONTH", "GASPERIO", "GASSATC", "GASYEAR",
   "GCALECON", "GCONCAL", "GCONENG", "GCONPRI", "GCONSALE", "GCONSUMP",
   "GCONTOL", "GCUTBACK", "GCUTBACT", "GCVD", "GDCQ", "GDCQECON",
   "GDIMS", "GDORIENT", "GDRILPOT", "GECON", "GETGLOB", "GI",
   "GIALL", "GIMODEL", "GINODE", "GLIFTLIM", "GLIFTOPT", "GNETDP",
   "GNETINJE", "GNETPUMP", "GPMAINT", "GRADGRUP", "GRADRESV", "GRADRFT",
   "GRADWELL", "GRAVCONS", "GRAVDR", "GRAVDRB", "GRAVDRM", "GRDREACH",
   "GRIDUNIT", "GRUPMAST", "GRUPNET", "GRUPRIG", "GRUPSLAV", "GRUPTARG",
   "GSATINJE", "GSEPCOND", "GSSCPTST", "GSWINGF", "GTADD", "GTMULT",
   "GUIDECAL", "GSATPROD", "GUIDERAT", "GUPFREQ", "GWRTWCV", "HALFTRAN",
   "HAxxxxxx", "HBNUM", "HDISP", "HMAQUCT", "HMAQUFET", "HMAQUNUM",
   "HMDIMS", "HMFAULTS", "HMMLAQUN", "HMMLCTAQ", "HMMLFTAQ", "HMMLTWCN",
   "HMMULTxx", "HMMULTFT", "HMPROPS", "HMROCK", "HMROCKT", "HMRREF",
   "HMWELCON", "HMWPIMLT", "HMxxxxxx", "HRFIN", "HWKRO", "HWKRORG",
   "HWKRORW", "HWKRW", "HWKRWR", "HWPCW", "HWSNUM", "HWSOGCR",
   "HWSOWCR", "HWSWCR", "HWSWL", "HWSWLPC", "HWSWU", "HXFIN",
   "HYDRHEAD", "HYFIN", "HYMOBGDR", "HYST", "HYSTCHCK", "HZFIN",
   "IHOST", "IMBNUMMF", "IMKRVD", "IMPCVD", "IMPES", "IMPLICIT",
   "IMPORT", "IMPTVD", "INRAD", "IMSPCVD", "INSPEC", "INTPC",
   "IONROCK", "IONXROCK", "IONXSURF", "ISOLNUM", "JFUNCR", "KRNUM",
   "KRNUMMF", "LANGMPL", "LANGMUIR", "LANGSOLV", "LCUNIT", "LGR",
   "LGRCOPY", "LGRFREE", "LGRLOCK", "LGROFF", "LGRON", "LICENSES",
   "LINCOM", "LINKPERM", "LIFTOPT", "LKRO", "LKRORG", "LKRORW",
   "LKRW", "LKRWR", "LOAD", "LOWSALT", "LPCW", "LSALTFNC",
   "LSLTWNUM", "LSNUM", "LSOGCR", "LSOWCR", "LSWCR", "LSWL",
   "LSWLPC", "LSWU", "LTOSIGMA", "LWKRO", "LWKRORG", "LWKRORW",
   "LWKRW", "LWKRWR", "LWPCW", "LWSLTNUM", "LWSNUM", "LWSOGCR",
   "LWSOWCR", "LWSWCR", "LWSWL", "LWSWLPC", "LWSWU", "LX",
   "LY", "LZ", "MAPUNITS", "MASSFLOW", "MATCORR", "MAXVALUE",
   "MEMORY", "MESSAGE", "MESSOPTS", "MESSSRVC", "MINNNCT", "MINPORV",
   "MINVALUE", "MLANG", "MLANGSLV", "MONITOR", "MPFANUM", "MPFNNC",
   "MSGFILE", "MULSGGD", "MULSGGDV", "MULTOUTS", "MULTREAL", "MULTREGD",
   "MULTREGH", "MULTSIG", "MULTSIGV", "MULT_XYZ", "NARROW", "NCONSUMP",
   "NEFAC", "NETBALAN", "NETCOMPA", "NETWORK", "NEXT", "NEXTSTEP",
   "NEXTSTPL", "NINENUM", "NINEPOIN", "NMATOPTS", "NMATRIX", "NODPPM",
   "NOHMD", "NOHMO", "NOHYST", "NOWARNEP", "NRSOUT", "NNEWTF",
   "NOCASC", "NODEPROP", "NOGGF", "NOINSPEC", "NLINEARS", "NOMONITO",
   "NONNC", "NORSSPEC", "NOWARN", "NSTACK", "NUMRES", "NWATREM",
   "NXFIN", "NYFIN", "NZFIN", "OFM", "OILAPI", "OLDTRAN",
   "OLDTRANR", "OPERATER", "OPERNUM", "OPTIONS", "OPTIONS", "OUTSOL",
   "PARAOPTS", "PCG32D", "PCW32D", "PETOPTS", "PLYOPTS", "PLYRMDEN",
   "PLYROCKM", "PLYTRRF", "PLYTRRFA", "PLYVISCS", "PLYVISCT", "PLYVSCST",
   "PVZG", "PMAX", "PRIORITY", "PSTEADY", "PSWRG", "PSWRO",
   "PVCO", "PVZG", "QDRILL", "QDRILL", "QHRATING", "QMOBIL",
   "PARALLEL", "PARTTRAC", "PBUB", "PCG", "PCW", "PDEW",
   "PEBI", "PECOEFS", "PEDIMS", "PEGTABX", "PEKTABX", "PENUM",
   "PERMAVE", "PERMR", "PERMTHT", "PERMXY", "PERMYZ", "PERMZX",
   "PETGRID", "PICOND", "PIMULTAB", "PINCHNUM", "PINCHOUT", "PINCHREG",
   "PINCHXY", "PLYADSS", "PLYATEMP", "PLYCAMAX", "PLYDHFLF", "PPCWMAX",
   "RAINFALL", "RBEDCONT", "RADIAL", "RCMASTS", "REACACT", "REACHES",
   "READDATA", "RESIDNUM", "RESVNUMS", "RIVDEBUG", "RIVRXSEC", "RIVERSYS",
   "RIVRDIM", "RIVRPROP", "RIVRXSE", "RIVSALT", "RIVTRACE", "ROCKFRAC",
   "ROCKPAMA", "ROCKTABH", "ROCKTAB", "ROCKTHSG", "ROCKTSIG", "ROCKV",
   "RPTCPL", "RPTGRIDL", "RPTHM", "RPTHMG", "RPTHMD", "RPTHMW",
   "RPTINIT", "RPTISOL", "RPTPROPS", "RPTREGS", "RSGI", "RSSPE",
   "RSSSPEC", "RVCONS", "RVCONSTT", "RVGI", "REFINE", "RADFIN4",
   "RHO", "RKTRMDIR", "ROCKOPTS", "ROCKTAB", "RPTGRID", "RPTONLY",
   "RPTONLYO", "RPTPROS", "PRTRST", "RPTRUNSP", "RPTSMRY", "RSCONST",
   "RSCONSTT", "RTEMPA", "RUNSUM", "SATOPTS", "SAVE", "SEPARATE",
   "SKIP", "SKIP100", "SKIP300", "SKIPREST", "SUMTHIN", "SALT",
   "SALTNODE", "SALTREST", "SCALELIM", "SCDATAB", "SCDETAB", "SCDPTAB",
   "SCDPTRAC", "SCPDIMS", "SCVD", "SEPVALS", "SFOAM", "SGF32D",
   "SIGMA", "SIGMAGD", "SIGMAGDV", "SIGMATH", "SIGMAV", "SIMULATE",
   "SKRO", "SKRORG", "SKRORW", "SKRW", "SKRWR", "SLAVES",
   "SMULTX", "SMULTY", "SMULTZ", "SOCRS", "SOF32D", "SOLVCONC",
   "SOLVDIMS", "SOLVDIRS", "SOLVFRAC", "SOLVNUM", "SOLWNUM", "SOMGAS",
   "SOMWAT", "SSGCR", "SSGL", "SSOGCR", "SSOWCR", "SSWCR",
   "SSWL", "SSWU", "STOG", "STOW", "STWG", "SURF",
   "SURFACT", "SURFACTW", "SURFADDW", "SURFADS", "SURFCAPD", "SURFESAL",
   "SURFNUM", "SURFOPTS", "SURFROCK", "SURFST", "SURFSTES", "SURFVISC",
   "SURFWNUM", "SWF32D", "SWINGFACTEMP", "TEMPNODE", "TEMPTVD", "TEMPVD",
   "TIGHTEN", "TIGHTENP", "TIME", "TNUM", "TPAMEPS", "TPAMEPSS",
   "TRACERKM", "TRACERKP", "TRACITVD", "TRACTVD", "TRACER", "TRACERS",
   "TRACITVD", "TRADS", "TRANGL", "TRANR", "TRANTHT", "TRDCY",
   "TRDIF", "TRDIS", "TRKPF", "TRNHD", "TRPLPORO", "TRROCK",
   "TUNINGDP", "TUNINGH", "TUNINGL", "TUNINGS", "TVDP", "TZONE",
   "VAPPARS", "UDT", "UDTDIMS", "UNCODHMD", "UNIFOUTS", "UNIFSAVE",
   "USECUPL", "USEFLUX", "USENOFLO", "VDFLOW", "VDFLOWR", "VE",
   "VEDEBUG", "VEFIN", "VEFRAC", "VEFRACP", "VEFRACPV", "VEFRACV",
   "VFPCHK", "VFPTABL", "VISAGE", "VISCD", "VISCREF", "VISDATES",
   "VISOPTS", "WAGHYSTR", "WAITBAL", "WALKALIN", "WALQCALC", "WAPI",
   "WARN", "WBHGLR", "WBOREVOL", "WCALCVAL", "WBP", "WBP4",
   "WBP5", "WBP9", "WCONINJ", "WCONINJP", "WCUTBACK", "WCUTBACT",
   "WCYCLE", "WDFACCOR", "WDFAC", "WDRILTIM", "WDRILPRI", "WDRILRES",
   "WECONINJ", "WECONT", "WELCNTL", "WELDEBUG", "WELDRAW", "WELEVNT",
   "WELOPENLWELPI", "WELPRI", "WELSOMIN", "WELSPECL", "WFRICSEG", "WFRICSGL",
   "WFRICTN", "WFRICTNL", "WGASPROD", "WGORPEN", "WH2NUM", "WH3NUM",
   "WHEDREFD", "WHTEMP", "WINJMULT", "WLIMTOL", "WLIFTOPT", "WLISTARG",
   "WLISTNAM", "WLISTOPT", "WNETCTRL", "WNETDP", "WORKLIM", "WORKTHP",
   "WPAVE", "WPIMULTL", "WPITAB", "WPLUG", "WPOLYRED", "WPOTCALC",
   "WREGROUP", "WSCCLEAN", "WSCCLENL", "WSCTAB", "WSEGAICD", "WSEGVALV",
   "WSEGDFIN", "WSEGDFMD", "WSEGDFPA", "WSEGEXSS", "WSEGFLIM", "WSEGFMOD",
   "WSEGINIT", "WSEGITER", "WSEGLABY", "WSEGLINK", "WSEGMULT", "WSEGPROP",
   "WSEGPULL", "WSEGSEP", "WSEGSOLV", "WSEGTABL", "WSURFACT", "WTAD",
   "WTEMPQ", "WTHPMAX", "WTMULT", "WVFPDP", "WVFPEXP", "WWPAVE",
   "ZIPPY2", "ZIPP2OFF"]

/-- Membership test `unsupported_keywords.find(name) != unsupported_keywords.end()` on the
`std::unordered_set` built from the initializer list. -/
def isUnsupported (name : String) : Bool :=
  unsupported_keywords_init.contains name

/-- The multimap `string_options` after its five `addSupported` calls. -/
def string_options : OptionMap String :=
  let m0 : OptionMap String := []
  let m1 := addSupported "COMPORD" "ORDER_TYPE" m0 "INPUT"
  let m2 := addSupported "ENDSCALE" "DIRECT" m1 "NODIR"
  let m3 := addSupported "ENDSCALE" "IRREVERS" m2 "REVER"
  let m4 := addSupported "PINCH" "CONTROL_OPTION" m3 "GAP"
  addSupported "PINCH" "PINCHOUT_OPTION" m4 "TOPBOT"

/-- The multimap `int_options` after its `addSupported` call. -/
def int_options : OptionMap Int :=
  addSupported "EHYSTR" "relative_perm_hyst" [] 0

/-- Message of the SIMULATOR_KEYWORD_NOT_SUPPORTED error in `checkKeywords`. -/
def keywordMsg (keyword : DeckKeyword) : String :=
  "Keyword \x27" ++ keyword.name ++ "\x27 is not supported by flow.\n"
    ++ "In file " ++ keyword.location.filename ++ ", line " ++ toString keyword.location.lineno ++ "\n"

/-- Body of the loop of `checkKeywords` for the keyword `deck.getKeyword(idx)`. -/
def checkKeyword (errorGuard : ErrorGuard) (keyword : DeckKeyword) : ErrorGuard :=
  let eg1 :=
    if isUnsupported keyword.name then
      handleError ErrorKey.SIMULATOR_KEYWORD_NOT_SUPPORTED (keywordMsg keyword) errorGuard
    else errorGuard
  let eg2 := checkOptions DeckKeyword.getString id keyword string_options eg1
  checkOptions DeckKeyword.getInt toString keyword int_options eg2

/-- Embeds `checkKeywords(deck, parseContext, errorGuard)`: the loop over `idx = 0 .. deck.size()-1`;
the result is the error guard after the call. -/
def checkKeywords (deck : Deck) (errorGuard : ErrorGuard) : ErrorGuard :=
  deck.foldl checkKeyword errorGuard

/-- The errors one keyword's `checkOptions` calls hand to the guard, in closed form. -/
def optionReports {T : Type} [DecidableEq T] (get : DeckKeyword → String → T) (cast : T → String)
    (keyword : DeckKeyword) (map : OptionMap T) : List ErrorReport :=
  ((equalRange map keyword.name).filter (fun e => decide (get keyword e.2.item ≠ e.2.item_value))).map
    (fun e => ⟨ErrorKey.SIMULATOR_KEYWORD_ITEM_NOT_SUPPORTED, itemMsg cast keyword e⟩)

/-- All errors handed to the guard while one keyword is checked, in closed form. -/
def keywordReports (keyword : DeckKeyword) : List ErrorReport :=
  (if isUnsupported keyword.name then
      [⟨ErrorKey.SIMULATOR_KEYWORD_NOT_SUPPORTED, keywordMsg keyword⟩] else [])
    ++ optionReports DeckKeyword.getString id keyword string_options
    ++ optionReports DeckKeyword.getInt toString keyword int_options

/-- Specification side: the error for a string item `item` of `keyword` whose only supported
value is `value`, present when the first value of the item in record 0 differs. -/
def stringItemError (keyword : DeckKeyword) (item value : String) : List ErrorReport :=
  if keyword.getString item ≠ value then
    [⟨ErrorKey.SIMULATOR_KEYWORD_ITEM_NOT_SUPPORTED,
      itemMsg id keyword (keyword.name, ⟨item, value⟩)⟩]
  else []

/-- Specification side: the same for an integer item. -/
def intItemError (keyword : DeckKeyword) (item : String) (value : Int) : List ErrorReport :=
  if keyword.getInt item ≠ value then
    [⟨ErrorKey.SIMULATOR_KEYWORD_ITEM_NOT_SUPPORTED,
      itemMsg toString keyword (keyword.name, ⟨item, value⟩)⟩]
  else []

/-- Specification side: the item errors of one keyword as the documentation lists them:
COMPORD.ORDER_TYPE = INPUT, ENDSCALE.DIRECT = NODIR, ENDSCALE.IRREVERS = REVER,
PINCH.CONTROL_OPTION = GAP, PINCH.PINCHOUT_OPTION = TOPBOT, EHYSTR.relative_perm_hyst = 0;
no other keyword has a partially supported item. -/
def itemErrorsSpec (keyword : DeckKeyword) : List ErrorReport :=
  if keyword.name = "COMPORD" then
    stringItemError keyword "ORDER_TYPE" "INPUT"
  else if keyword.name = "ENDSCALE" then
    stringItemError keyword "DIRECT" "NODIR" ++ stringItemError keyword "IRREVERS" "REVER"
  else if keyword.name = "PINCH" then
    stringItemError keyword "CONTROL_OPTION" "GAP"
      ++ stringItemError keyword "PINCHOUT_OPTION" "TOPBOT"
  else if keyword.name = "EHYSTR" then
    intItemError keyword "relative_perm_hyst" 0
  else []

/-- A deck keyword with the given name, without location and with empty items. -/
def bareKeyword (name : String) : DeckKeyword :=
  ⟨name, ⟨"", 0⟩, fun _ => "", fun _ => 0⟩

/-- A deck holding one keyword for each of eight names the source lists as unsupported. -/
def joinedNamesDeck : Deck :=
  ["DIFFUSE", "DIFFX", "FOAMFSO", "FOAMFST", "SWINGFAC", "TEMP", "WELOPENL", "WELPI"].map
    bareKeyword

end MissingFeatures

end Opm

namespace Opm

/-! Dual values -/

/-- Embeds `DenseAd::Evaluation<Scalar, n>` of the material library: a value and its `n` partial
derivatives; the operators below are the ones the aquifer and well code use. -/
structure Evaluation (n : Nat) where
  value : ℚ
  derivatives : Fin n → ℚ

namespace Evaluation

variable {n : Nat}

/-- Construction from a scalar: all derivatives zero. -/
def const (c : ℚ) : Evaluation n := ⟨c, fun _ => 0⟩

/-- Embeds `a + b`. -/
def add (a b : Evaluation n) : Evaluation n :=
  ⟨a.value + b.value, fun k => a.derivatives k + b.derivatives k⟩

/-- Embeds `a - b`. -/
def sub (a b : Evaluation n) : Evaluation n :=
  ⟨a.value - b.value, fun k => a.derivatives k - b.derivatives k⟩

/-- Embeds `a + c` for a scalar `c`. -/
def addScalar (a : Evaluation n) (c : ℚ) : Evaluation n :=
  ⟨a.value + c, a.derivatives⟩

/-- Embeds `c - a` for a scalar `c`. -/
def scalarSub (c : ℚ) (a : Evaluation n) : Evaluation n :=
  ⟨c - a.value, fun k => - a.derivatives k⟩

/-- Embeds `a * c` for a scalar `c`. -/
def mulScalar (a : Evaluation n) (c : ℚ) : Evaluation n :=
  ⟨a.value * c, fun k => a.derivatives k * c⟩

/-- Embeds `c * a` for a scalar `c`. -/
def scalarMul (c : ℚ) (a : Evaluation n) : Evaluation n :=
  ⟨c * a.value, fun k => c * a.derivatives k⟩

end Evaluation

/-! AquiferFetkovich.hpp -/

/-- Embeds `Opm::FaceDir::DirEnum`. -/
inductive FaceDir where
  | XPlus | XMinus | YPlus | YMinus | ZPlus | ZMinus
  deriving DecidableEq, Repr

/-- Embeds `data::AquiferType` of the output library. -/
inductive AquiferType where
  | Fetkovich | CarterTracy
  deriving DecidableEq, Repr

/-- The fields of `data::AquiferData` that `assignRestartData` reads. -/
structure AquiferData where
  type : AquiferType
  pressure : ℚ

/-- Embeds `Aquifetp::AQUFETP_data`, the fields the aquifer reads; `p0` is the pair
(value given, value). -/
structure AQUFETP_data where
  d0 : ℚ
  C_t : ℚ
  V0 : ℚ
  J : ℚ
  p0 : Bool × ℚ

/-- Embeds `Aquancon::AquanconOutput`: one entry per connection; a defaulted influx coefficient is
`none`. -/
structure AquanconOutput where
  global_index : List Nat
  influx_coeff : List (Option ℚ)
  influx_multiplier : List ℚ
  reservoir_face_dir : List FaceDir

/-- What the aquifer reads from the simulator and its grid: the time step size, the number of
cells `gridView().size(0)`, the depth component `getCellCenter(cell)[2]` of a Cartesian cell,
the faces `cell2Faces[cell]` of a compressed cell, each with its index and its `faceTag`, and
`Base::getFaceArea(faceCells, ugrid, faceIdx, idx)`. -/
structure Simulator where
  timeStepSize : ℚ
  numCells : Nat
  cellCenterDepth : Nat → ℚ
  cell2Faces : Nat → List (Nat × Int)
  getFaceArea : Nat → Nat → ℚ

/-- State of an `AquiferFetkovich<TypeTag>` object: its own members and the members of
`AquiferInterface` it uses; `n` is the number of derivatives of `Eval`. -/
structure AquiferFetkovich (n : Nat) where
  aqufetp_data_ : AQUFETP_data
  aquifer_pressure_ : ℚ
  connection_ : AquanconOutput
  cartesian_to_compressed_ : Nat → Option Nat
  gravity_ : ℚ
  solution_set_from_restart_ : Bool
  cell_idx_ : List Nat
  cell_depth_ : List ℚ
  alphai_ : List ℚ
  faceArea_connected_ : List ℚ
  cellToConnectionIdx_ : List Int
  pressure_current_ : List (Evaluation n)
  rhow_ : List (Evaluation n)
  Qai_ : List (Evaluation n)
  W_flux_ : Evaluation n
  pa0_ : ℚ
  Tc_ : ℚ

namespace AquiferFetkovich

variable {n : Nat}

/-- Embeds `std::vector::resize(count, value)`: keeps the first `count` elements and pads with
`value`. -/
def resize {α : Type} (v : List α) (count : Nat) (value : α) : List α :=
  v.take count ++ List.replicate (count - v.length) value

/-- Embeds `v.at(idx) = x`, and `v[idx] = x` with the index checked: fails when `idx` is out of
range. -/
def setAt {α : Type} (v : List α) (idx : Nat) (x : α) : Except String (List α) :=
  if idx < v.length then .ok (v.set idx x) else .error "out_of_range"

/-- Embeds `v.at(idx)`, and `v[idx]` with the index checked. -/
def getAt {α : Type} (v : List α) (idx : Nat) : Except String α :=
  match v[idx]? with
  | some x => .ok x
  | none => .error "out_of_range"

/-- Embeds `aquiferPressure()`, Eq 5.12. -/
def aquiferPressure (s : AquiferFetkovich n) : ℚ :=
  let Flux := s.W_flux_.value
  s.pa0_ - Flux / (s.aqufetp_data_.C_t * s.aqufetp_data_.V0)

/-- Body of the loop of `endTimeStep` for one entry of `Qai_`. -/
def endTimeStepBody (sim : Simulator) (s : AquiferFetkovich n) (Qai : Evaluation n) :
    AquiferFetkovich n :=
  let s1 := { s with W_flux_ := s.W_flux_.add (Qai.mulScalar sim.timeStepSize) }
  { s1 with aquifer_pressure_ := aquiferPressure s1 }

/-- Embeds `endTimeStep()`: the range-for over `Base::Qai_`. -/
def endTimeStep (sim : Simulator) (s : AquiferFetkovich n) : AquiferFetkovich n :=
  s.Qai_.foldl (endTimeStepBody sim) s

/-- Embeds `assignRestartData(xaq)`: the outcome (an error is the thrown `std::invalid_argument`)
and the state of the object after the call. -/
def assignRestartData (s : AquiferFetkovich n) (xaq : AquiferData) :
    Except String Unit × AquiferFetkovich n :=
  if xaq.type ≠ AquiferType.Fetkovich then
    (.error "Analytic aquifer data for unexpected aquifer type passed to Fetkovich aquifer", s)
  else
    (.ok (), { s with aquifer_pressure_ := xaq.pressure })

/-- Embeds `dpai(idx)`. -/
def dpai (s : AquiferFetkovich n) (idx : Nat) : Except String (Evaluation n) := do
  let p ← getAt s.pressure_current_ idx
  let rhow ← getAt s.rhow_ idx
  let depth ← getAt s.cell_depth_ idx
  .ok ((Evaluation.scalarSub s.aquifer_pressure_ p).add
        ((rhow.mulScalar s.gravity_).mulScalar (depth - s.aqufetp_data_.d0)))

/-- Embeds `calculateAquiferConstants()`. -/
def calculateAquiferConstants (s : AquiferFetkovich n) : AquiferFetkovich n :=
  { s with Tc_ := (s.aqufetp_data_.C_t * s.aqufetp_data_.V0) / s.aqufetp_data_.J }

/-- Embeds `calculateInflowRate(idx, simulator)`, Eq 5.14; `exp` is `std::exp`, which exact rational
arithmetic does not have and which is therefore an argument. -/
def calculateInflowRate (exp : ℚ → ℚ) (s : AquiferFetkovich n) (idx : Nat)
    (simulator : Simulator) : Except String (AquiferFetkovich n) := do
  let td_Tc_ := simulator.timeStepSize / s.Tc_
  let coef := (1 - exp (-td_Tc_)) / td_Tc_
  let alphai ← getAt s.alphai_ idx
  let dp ← dpai s idx
  let Qai ← setAt s.Qai_ idx
    ((Evaluation.scalarMul (alphai * s.aqufetp_data_.J) dp).mulScalar coef)
  .ok { s with Qai_ := Qai }

/-- The `switch (faceTag)` of `initializeConnections`; any other tag throws. -/
def faceDirectionOfTag (faceTag : Int) : Except String FaceDir :=
  if faceTag = 0 then .ok FaceDir.XMinus
  else if faceTag = 1 then .ok FaceDir.XPlus
  else if faceTag = 2 then .ok FaceDir.YMinus
  else if faceTag = 3 then .ok FaceDir.YPlus
  else if faceTag = 4 then .ok FaceDir.ZMinus
  else if faceTag = 5 then .ok FaceDir.ZPlus
  else .error "Initialization of Aquifer problem. Make sure faceTag is correctly defined"

/-- The loop over the faces of one cell in `initializeConnections`: at the first face whose
direction is `reservoir_face_dir.at(idx)` the face area is stored at `idx` and the loop is
left. -/
def faceLoop (sim : Simulator) (reservoir_face_dir : List FaceDir) (idx : Nat) :
    List (Nat × Int) → List ℚ → Except String (List ℚ)
  | [], faceArea_connected_ => .ok faceArea_connected_
  | (faceIdx, faceTag) :: rest, faceArea_connected_ => do
    let faceDirection ← faceDirectionOfTag faceTag
    let dir ← getAt reservoir_face_dir idx
    if faceDirection = dir then
      setAt faceArea_connected_ idx (sim.getFaceArea faceIdx idx)
    else
      faceLoop sim reservoir_face_dir idx rest faceArea_connected_

/-- Local state of the first loop of `initializeConnections`. -/
structure ConnLoop where
  cellToConnectionIdx_ : List Int
  cell_depth_ : List ℚ
  faceArea_connected_ : List ℚ
  denom_face_areas : ℚ

/-- Embeds `cartesian_to_compressed_.at(cell)` on the `std::unordered_map`. -/
def compressedAt (s : AquiferFetkovich n) (cell : Nat) : Except String Nat :=
  match s.cartesian_to_compressed_ cell with
  | some c => .ok c
  | none => .error "out_of_range"

/-- The `if (!influx_coeff[idx]) ... else ...` of the first loop of `initializeConnections`:
the face loop for a defaulted coefficient, the coefficient itself otherwise. -/
def connectionArea (sim : Simulator) (s : AquiferFetkovich n) (idx cell_index : Nat)
    (faceArea_connected_ : List ℚ) : Option ℚ → Except String (List ℚ)
  | none =>
    faceLoop sim s.connection_.reservoir_face_dir idx (sim.cell2Faces cell_index)
      faceArea_connected_
  | some c => setAt faceArea_connected_ idx c

/-- Body of the first loop of `initializeConnections` for the connection `idx`. -/
def connectionBody (sim : Simulator) (s : AquiferFetkovich n) (st : ConnLoop) (idx : Nat) :
    Except String ConnLoop := do
  let cart ← getAt s.connection_.global_index idx
  let cell_index ← compressedAt s cart
  let c2c ← setAt st.cellToConnectionIdx_ cell_index (idx : Int)
  let depth ← setAt st.cell_depth_ idx (sim.cellCenterDepth cart)
  let coeff ← getAt s.connection_.influx_coeff idx
  let area ← connectionArea sim s idx cell_index st.faceArea_connected_ coeff
  let mult ← getAt s.connection_.influx_multiplier idx
  let a ← getAt area idx
  .ok ⟨c2c, depth, area, st.denom_face_areas + mult * a⟩

/-- The first loop of `initializeConnections` over the connections `idxs`. -/
def connectionLoop (sim : Simulator) (s : AquiferFetkovich n) :
    List Nat → ConnLoop → Except String ConnLoop
  | [], st => .ok st
  | idx :: rest, st => do
    let st1 ← connectionBody sim s st idx
    connectionLoop sim s rest st1

/-- The square root of the machine epsilon of `double`: epsilon is `2^-52`, its square root
`2^-26` is a `double`. -/
def eps_sqrt : ℚ := 1 / 2 ^ 26

/-- The value stored in `alphai_.at(idx)` by the second loop of `initializeConnections`:
zero below `eps_sqrt`, which prevents NaNs from a division by zero. -/
def alphaValue (s : AquiferFetkovich n) (faceArea_connected_ : List ℚ) (denom_face_areas : ℚ)
    (idx : Nat) : Except String ℚ :=
  if denom_face_areas < eps_sqrt then .ok 0
  else do
    let mult ← getAt s.connection_.influx_multiplier idx
    let a ← getAt faceArea_connected_ idx
    .ok ((mult * a) / denom_face_areas)

/-- The second loop of `initializeConnections`: the weights `alphai_`. -/
def alphaLoop (s : AquiferFetkovich n) (faceArea_connected_ : List ℚ) (denom_face_areas : ℚ) :
    List Nat → List ℚ → Except String (List ℚ)
  | [], alphai_ => .ok alphai_
  | idx :: rest, alphai_ => do
    let v ← alphaValue s faceArea_connected_ denom_face_areas idx
    let alphai1 ← setAt alphai_ idx v
    alphaLoop s faceArea_connected_ denom_face_areas rest alphai1

/-- Embeds `initializeConnections()`; an error result is a thrown exception or an index out of the
range of its vector. -/
def initializeConnections (sim : Simulator) (s : AquiferFetkovich n) :
    Except String (AquiferFetkovich n) := do
  let cell_idx_ := s.connection_.global_index
  let cell_depth_ := resize s.cell_depth_ cell_idx_.length s.aqufetp_data_.d0
  let alphai_ := resize s.alphai_ cell_idx_.length 1
  let faceArea_connected_ := resize s.faceArea_connected_ cell_idx_.length 0
  let cellToConnectionIdx_ := resize s.cellToConnectionIdx_ sim.numCells (-1)
  let st ← connectionLoop sim s (List.range cell_idx_.length)
    ⟨cellToConnectionIdx_, cell_depth_, faceArea_connected_, 0⟩
  let alphai1 ← alphaLoop s st.faceArea_connected_ st.denom_face_areas
    (List.range cell_idx_.length) alphai_
  .ok { s with
        cell_idx_ := cell_idx_
        cell_depth_ := st.cell_depth_
        alphai_ := alphai1
        faceArea_connected_ := st.faceArea_connected_
        cellToConnectionIdx_ := st.cellToConnectionIdx_ }

/-- Specification side: the pressure difference `dp` of Eq 5.14 for aquifer pressure `pa`,
cell pressure `p`, water density `rhow` and depths `depth`, `d0`, value and derivatives. -/
def dpSpec (pa : ℚ) (p rhow : Evaluation n) (gravity depth d0 : ℚ) : Evaluation n :=
  ⟨pa - p.value + rhow.value * gravity * (depth - d0),
    fun k => - p.derivatives k + rhow.derivatives k * gravity * (depth - d0)⟩

/-- Specification side: Eq 5.14, `alphai * J * dp * (1 - exp(-x)) / x`, value and
derivatives. -/
def inflowRateSpec (exp : ℚ → ℚ) (alphai J x : ℚ) (dp : Evaluation n) : Evaluation n :=
  ⟨alphai * J * dp.value * (1 - exp (-x)) / x,
    fun k => alphai * J * dp.derivatives k * (1 - exp (-x)) / x⟩

/-- The term `influx_multiplier[i] * faceArea_connected_[i]` of connection `i`. -/
def weightTerm (influx_multiplier faceArea_connected_ : List ℚ) (i : Nat) : ℚ :=
  influx_multiplier.getD i 0 * faceArea_connected_.getD i 0

/-- The denominator of the weights as a function of the state after initialisation: the sum
over the connections `i` of `influx_multiplier[i] * faceArea_connected_[i]`. -/
def denomFaceAreas (s : AquiferFetkovich n) : ℚ :=
  ((List.range s.cell_idx_.length).map
    (weightTerm s.connection_.influx_multiplier s.faceArea_connected_)).sum

end AquiferFetkovich

end Opm

namespace Opm

namespace AquiferFetkovich

variable {n : Nat}

/-- What `calculateReservoirEquilibrium` reads of the fluid state of a cell through the
element context: `fs.pressure(waterPhaseIdx).value()` and `fs.density(waterPhaseIdx)`. -/
structure WaterState (n : Nat) where
  pressure : Nat → ℚ
  density : Nat → Evaluation n

/-- Local state of the element loop of `calculateReservoirEquilibrium`. -/
structure EquilLoop (n : Nat) where
  rhow_ : List (Evaluation n)
  pw_aquifer : List ℚ

/-- The part of the element loop of `calculateReservoirEquilibrium` after the test
`idx < 0`, for the cell `cellIdx` and its connection `idx`. -/
def equilibriumConnection (fs : WaterState n) (s : AquiferFetkovich n) (st : EquilLoop n)
    (cellIdx idx : Nat) : Except String (EquilLoop n) := do
  let water_pressure_reservoir := fs.pressure cellIdx
  let rhow ← setAt st.rhow_ idx (fs.density cellIdx)
  let rho ← getAt rhow idx
  let depth ← getAt s.cell_depth_ idx
  let alphai ← getAt s.alphai_ idx
  .ok ⟨rhow, st.pw_aquifer ++
    [(water_pressure_reservoir - rho.value * s.gravity_ * (depth - s.aqufetp_data_.d0))
      * alphai]⟩

/-- Body of the element loop of `calculateReservoirEquilibrium` for the element of cell
`cellIdx`: cells without a connection are skipped. -/
def equilibriumBody (fs : WaterState n) (s : AquiferFetkovich n) (st : EquilLoop n)
    (cellIdx : Nat) : Except String (EquilLoop n) := do
  let idx ← getAt s.cellToConnectionIdx_ cellIdx
  if idx < 0 then .ok st else equilibriumConnection fs s st cellIdx idx.toNat

/-- The element loop of `calculateReservoirEquilibrium` over the cells `cells`. -/
def equilibriumLoop (fs : WaterState n) (s : AquiferFetkovich n) :
    List Nat → EquilLoop n → Except String (EquilLoop n)
  | [], st => .ok st
  | cellIdx :: rest, st => do
    let st1 ← equilibriumBody fs s st cellIdx
    equilibriumLoop fs s rest st1

/-- Embeds `calculateReservoirEquilibrium()`: the elements of the grid view are the cells
`0 .. gridView().size(0) - 1`; the result is the returned pressure and the state, in which
`rhow_` has been written. -/
def calculateReservoirEquilibrium (sim : Simulator) (fs : WaterState n)
    (s : AquiferFetkovich n) : Except String (ℚ × AquiferFetkovich n) := do
  let st ← equilibriumLoop fs s (List.range sim.numCells) ⟨s.rhow_, []⟩
  let sum_alpha := s.alphai_.sum
  let aquifer_pres_avg := st.pw_aquifer.sum / sum_alpha
  .ok (aquifer_pres_avg, { s with rhow_ := st.rhow_ })

/-- The choice of `pa0_` in `calculateAquiferCondition`: the equilibrium pressure when `p0`
is defaulted, the given `p0` otherwise. -/
def initialPressure (sim : Simulator) (fs : WaterState n) (s : AquiferFetkovich n) :
    Except String (AquiferFetkovich n) :=
  if !s.aqufetp_data_.p0.1 then do
    let r ← calculateReservoirEquilibrium sim fs s
    .ok { r.2 with pa0_ := r.1 }
  else
    .ok { s with pa0_ := s.aqufetp_data_.p0.2 }

/-- Embeds `calculateAquiferCondition()`. -/
def calculateAquiferCondition (sim : Simulator) (fs : WaterState n) (s : AquiferFetkovich n) :
    Except String (AquiferFetkovich n) :=
  let s0 := { s with rhow_ := resize s.rhow_ s.cell_idx_.length (Evaluation.const 0) }
  if s0.solution_set_from_restart_ then .ok s0
  else do
    let s1 ← initialPressure sim fs s0
    .ok { s1 with aquifer_pressure_ := s1.pa0_ }

/-- Whether a face of a cell, given by index and tag, has the direction `dir`. -/
def faceHasDir (dir : FaceDir) (face : Nat × Int) : Bool :=
  match faceDirectionOfTag face.2 with
  | .ok d => decide (d = dir)
  | .error _ => false

end AquiferFetkovich

end Opm

namespace Opm

/-! StandardWell.hpp -/

namespace StandardWell

/-- Embeds `enum WellVariablePositions`. -/
inductive WellVariablePositions where
  | XvarWell | WFrac | GFrac
  deriving DecidableEq, Repr

/-- The enumerator values `XvarWell = 0`, `WFrac = 1`, `GFrac = 2`. -/
def WellVariablePositions.toNat : WellVariablePositions → Nat
  | .XvarWell => 0
  | .WFrac => 1
  | .GFrac => 2

/-- Embeds `static const int numEq = 3`. -/
def numEq : Nat := 3

/-- Embeds `static const int numWellEq = numEq`. -/
def numWellEq : Nat := numEq

/-- Embeds `typedef DenseAd::Evaluation<double, numEq + numWellEq> EvalWell`. -/
abbrev EvalWell := Evaluation (numEq + numWellEq)

/-- Embeds `typedef DenseAd::Evaluation<double, numEq> Eval`. -/
abbrev Eval := Evaluation numEq

/-- Embeds `VectorBlockType`, a `Dune::FieldVector<Scalar, numEq>`. -/
abbrev VectorBlockType := Fin numEq → ℚ

/-- Embeds `MatrixBlockType`, a `Dune::FieldMatrix<Scalar, numEq, numEq>`. -/
abbrev MatrixBlockType := Matrix (Fin numEq) (Fin numEq) ℚ

/-- The well type of the well interface. -/
inductive WellType where
  | INJECTOR | PRODUCER
  deriving DecidableEq, Repr

/-- Modelled from the spec: the body of `StandardWell::computePerfRate`, which the header
declares and `StandardWell_impl.hpp` (not part of the sources at hand) defines. The flow
direction is the sign of `cell pressure - (bhp + cdp)`: positive is flow into the wellbore,
the direction of a producer, negative is flow out of it, the direction of an injector. If
cross-flow is disallowed and the direction contradicts the well type, every rate of the
perforation is zero; otherwise the rates are those of the upwind rule, `upwindRates`, which
the spec leaves to the property evaluator. -/
def computePerfRate (wellType : WellType) (pressure : EvalWell)
    (upwindRates : EvalWell → List EvalWell) (bhp : EvalWell) (cdp : ℚ) (allow_cf : Bool)
    (cq_s : List EvalWell) : List EvalWell :=
  let well_pressure := bhp.addScalar cdp
  let drawdown := pressure.sub well_pressure
  if 0 < drawdown.value then
    if !allow_cf && decide (wellType = WellType.INJECTOR) then
      cq_s.map (fun _ => Evaluation.const 0)
    else upwindRates drawdown
  else if drawdown.value < 0 then
    if !allow_cf && decide (wellType = WellType.PRODUCER) then
      cq_s.map (fun _ => Evaluation.const 0)
    else upwindRates drawdown
  else upwindRates drawdown

/-- The linear system of one well and the reservoir unknowns it touches, `nr` of them:
`duneB_`, `duneC_` (both reservoir unknowns by well unknowns), the well block `D` with its
cached inverse `invDuneD_`, the reservoir block `A`, and the two residuals. -/
structure WellSystem (nr : Nat) where
  duneB_ : Matrix (Fin nr) (Fin numWellEq) ℚ
  duneC_ : Matrix (Fin nr) (Fin numWellEq) ℚ
  D : Matrix (Fin numWellEq) (Fin numWellEq) ℚ
  invDuneD_ : Matrix (Fin numWellEq) (Fin numWellEq) ℚ
  A : Matrix (Fin nr) (Fin nr) ℚ
  resWell_ : Fin numWellEq → ℚ
  resReservoir : Fin nr → ℚ

namespace WellSystem

variable {nr : Nat}

/-- Modelled from the spec: the full block system `[D B; C A]` (the assembly routines that
build it are in the missing `StandardWell_impl.hpp`): the well rows
`D * dwell + Bᵗ * dres = resWell` and the reservoir rows `C * dwell + A * dres = res`, with
`Bᵗ` the coupling block of the well rows as the elimination formulas write it. -/
def solvesFull (w : WellSystem nr) (dwell : Fin numWellEq → ℚ) (dres : Fin nr → ℚ) : Prop :=
  w.D.mulVec dwell + w.duneB_.transpose.mulVec dres = w.resWell_
    ∧ w.duneC_.mulVec dwell + w.A.mulVec dres = w.resReservoir

/-- Modelled from the spec: the reduced operator `A - C * D⁻¹ * Bᵗ` of the Schur
complement, with the cached `D⁻¹`. -/
def reducedOperator (w : WellSystem nr) : Matrix (Fin nr) (Fin nr) ℚ :=
  w.A - w.duneC_ * w.invDuneD_ * w.duneB_.transpose

/-- Modelled from the spec: the reduced residual `res - C * D⁻¹ * resWell`. -/
def reducedResidual (w : WellSystem nr) : Fin nr → ℚ :=
  w.resReservoir - (w.duneC_ * w.invDuneD_).mulVec w.resWell_

/-- The reduced, reservoir-only system. -/
def solvesReduced (w : WellSystem nr) (dres : Fin nr → ℚ) : Prop :=
  w.reducedOperator.mulVec dres = w.reducedResidual

/-- Modelled from the spec: back-substitution `dwell = D⁻¹ * (resWell - Bᵗ * dres)` with the
cached `D⁻¹`. -/
def backSubstitute (w : WellSystem nr) (dres : Fin nr → ℚ) : Fin numWellEq → ℚ :=
  w.invDuneD_.mulVec (w.resWell_ - w.duneB_.transpose.mulVec dres)

end WellSystem

end StandardWell

end Opm

namespace Opm

/-- The number of derivatives of a dual value, `Evaluation::size()`. -/
def Evaluation.size {n : Nat} (_ : Evaluation n) : Nat := n

namespace StandardWell

/-- Modelled from the spec: the body of `StandardWell::extendEval`, which the header
declares and the missing `StandardWell_impl.hpp` defines: the promotion step that widens a
reservoir-only dual value into the combined derivative space, the `numEq` reservoir slots
first and the `numWellEq` well slots, set to zero, after them. -/
def extendEval (inp : Eval) : EvalWell :=
  ⟨inp.value, fun k => if h : k.val < numEq then inp.derivatives ⟨k.val, h⟩ else 0⟩

/-- Modelled from the spec: the direct inversion of one dense well block (the inversion
routine is in the missing `StandardWell_impl.hpp`): a block without a nonzero pivot, one of
determinant zero, is a failure; any other block is replaced by adjugate over determinant. -/
def invertBlock (D : MatrixBlockType) : Except String MatrixBlockType :=
  if D.det = 0 then .error "singular well block"
  else .ok (D.det⁻¹ • D.adjugate)

/-- The type `Mat`, a `Dune::BCRSMatrix<MatrixBlockType>`: the rows of stored blocks. -/
abbrev Mat := List (List MatrixBlockType)

/-- The inner loop of `localInvert` over the stored blocks of one row. -/
def invertRow : List MatrixBlockType → Except String (List MatrixBlockType)
  | [] => .ok []
  | col :: rest => do
    let inv ← invertBlock col
    let rest1 ← invertRow rest
    .ok (inv :: rest1)

/-- Modelled from the spec: `StandardWell::localInvert(Mat& istlA)`, declared in the header
and defined in the missing `StandardWell_impl.hpp`: every stored block is inverted in place;
a singular block is reported as a failure. -/
def localInvert : Mat → Except String Mat
  | [] => .ok []
  | row :: rest => do
    let row1 ← invertRow row
    let rest1 ← localInvert rest
    .ok (row1 :: rest1)

end StandardWell

end Opm

namespace Opm

/-! Concrete inputs -/

namespace AquiferFetkovich

/-- A grid view of two cells: cell 0 has an X- face of area 3 and a Z+ face of area 5. -/
def exampleSimulator : Simulator where
  timeStepSize := 2
  numCells := 2
  cellCenterDepth := fun c => if c = 7 then 10 else 20
  cell2Faces := fun c => if c = 0 then [(0, 0), (1, 5)] else [(2, 4)]
  getFaceArea := fun faceIdx _ => if faceIdx = 1 then 5 else 3

/-- An aquifer with two connections before `initializeConnections`: the first with a
defaulted influx coefficient on the Z+ face of Cartesian cell 7, the second with
coefficient 15 on Cartesian cell 9. -/
def exampleAquifer : AquiferFetkovich 1 where
  aqufetp_data_ := ⟨5, 2, 3, 4, (false, 0)⟩
  aquifer_pressure_ := 100
  connection_ := ⟨[7, 9], [none, some 15], [1, 1], [FaceDir.ZPlus, FaceDir.XMinus]⟩
  cartesian_to_compressed_ := fun c => if c = 7 then some 0 else if c = 9 then some 1 else none
  gravity_ := 10
  solution_set_from_restart_ := false
  cell_idx_ := []
  cell_depth_ := []
  alphai_ := []
  faceArea_connected_ := []
  cellToConnectionIdx_ := []
  pressure_current_ := [⟨90, fun _ => 1⟩, ⟨80, fun _ => 1⟩]
  rhow_ := [⟨1, fun _ => 0⟩, ⟨1, fun _ => 0⟩]
  Qai_ := [⟨3, fun _ => 1⟩, ⟨4, fun _ => 2⟩]
  W_flux_ := ⟨6, fun _ => 0⟩
  pa0_ := 100
  Tc_ := 3 / 2

/-- The example aquifer after `initializeConnections`. -/
def exampleAquiferInit : AquiferFetkovich 1 :=
  { exampleAquifer with
    cell_idx_ := [7, 9]
    cell_depth_ := [10, 20]
    alphai_ := [1 / 4, 3 / 4]
    faceArea_connected_ := [5, 15]
    cellToConnectionIdx_ := [0, 1] }

end AquiferFetkovich

namespace StandardWell

/-- A well coupled to two reservoir unknowns, with `D = 2 I` and its cached inverse. -/
def exampleWellSystem : WellSystem 2 where
  duneB_ := fun i j => if i.val = 0 ∧ j.val = 0 then 1 else 0
  duneC_ := fun i j => if i.val = 1 ∧ j.val = 2 then 3 else 0
  D := Matrix.diagonal (fun _ => 2)
  invDuneD_ := Matrix.diagonal (fun _ => 1 / 2)
  A := 1
  resWell_ := fun _ => 1
  resReservoir := fun _ => 0

end StandardWell

end Opm

namespace Opm

namespace AquiferFetkovich

/-- An aquifer with one connection with a defaulted influx coefficient on the Y+ face of
Cartesian cell 7, a direction none of the faces of that cell has. -/
def exampleAquiferNoFace : AquiferFetkovich 1 :=
  { exampleAquifer with
    connection_ := ⟨[7], [none], [1], [FaceDir.YPlus]⟩ }

/-- The aquifer without a matching face after `initializeConnections`. -/
def exampleAquiferNoFaceInit : AquiferFetkovich 1 :=
  { exampleAquiferNoFace with
    cell_idx_ := [7]
    cell_depth_ := [10]
    alphai_ := [0]
    faceArea_connected_ := [0]
    cellToConnectionIdx_ := [0, -1] }

end AquiferFetkovich

end Opm

/-! Theorems: MissingFeatures.cpp -/

namespace Opm
namespace MissingFeatures

/-- A loop that conditionally hands one error per entry to the guard appends, in order, the
errors of the entries that satisfy the condition. -/
theorem foldl_handleError_eq {α : Type} (p : α → Bool) (key : ErrorKey) (f : α → String)
    (l : List α) (eg : ErrorGuard) :
    l.foldl (fun eg e => if p e then handleError key (f e) eg else eg) eg
      = eg ++ (l.filter p).map (fun e => ⟨key, f e⟩) := by
  induction l generalizing eg with
  | nil => simp
  | cons a t ih =>
    by_cases h : p a = true
    · rw [List.foldl_cons, if_pos h, ih]
      simp [h, handleError]
    · rw [List.foldl_cons, if_neg h, ih]
      simp [h]

theorem checkOptions_eq {T : Type} [DecidableEq T] (get : DeckKeyword → String → T)
    (cast : T → String) (keyword : DeckKeyword) (map : OptionMap T) (eg : ErrorGuard) :
    checkOptions get cast keyword map eg = eg ++ optionReports get cast keyword map := by
  unfold checkOptions optionReports
  have h := foldl_handleError_eq (fun e : String × PartiallySupported T =>
      decide (get keyword e.2.item ≠ e.2.item_value))
    ErrorKey.SIMULATOR_KEYWORD_ITEM_NOT_SUPPORTED (itemMsg cast keyword)
    (equalRange map keyword.name) eg
  simpa using h

theorem checkKeyword_eq (eg : ErrorGuard) (keyword : DeckKeyword) :
    checkKeyword eg keyword = eg ++ keywordReports keyword := by
  unfold checkKeyword keywordReports
  simp only [checkOptions_eq]
  by_cases h : isUnsupported keyword.name = true
  · simp [h, handleError]
  · simp [h]

theorem checkKeywords_eq (deck : Deck) (eg : ErrorGuard) :
    checkKeywords deck eg = eg ++ deck.flatMap keywordReports := by
  unfold checkKeywords
  induction deck generalizing eg with
  | nil => simp
  | cons k t ih => simp [List.foldl_cons, ih, checkKeyword_eq, List.flatMap_cons]

theorem optionReports_key {T : Type} [DecidableEq T] (get : DeckKeyword → String → T)
    (cast : T → String) (keyword : DeckKeyword) (map : OptionMap T) :
    ∀ r ∈ optionReports get cast keyword map,
      r.key = ErrorKey.SIMULATOR_KEYWORD_ITEM_NOT_SUPPORTED := by
  intro r hr
  unfold optionReports at hr
  rcases List.mem_map.1 hr with ⟨e, _, rfl⟩
  rfl

theorem filter_notSupported_optionReports {T : Type} [DecidableEq T]
    (get : DeckKeyword → String → T) (cast : T → String) (keyword : DeckKeyword)
    (map : OptionMap T) :
    (optionReports get cast keyword map).filter
      (fun r => decide (r.key = ErrorKey.SIMULATOR_KEYWORD_NOT_SUPPORTED)) = [] := by
  rw [List.filter_eq_nil_iff]
  intro r hr
  simp [optionReports_key get cast keyword map r hr]

theorem filter_item_optionReports {T : Type} [DecidableEq T]
    (get : DeckKeyword → String → T) (cast : T → String) (keyword : DeckKeyword)
    (map : OptionMap T) :
    (optionReports get cast keyword map).filter
      (fun r => decide (r.key = ErrorKey.SIMULATOR_KEYWORD_ITEM_NOT_SUPPORTED))
      = optionReports get cast keyword map := by
  rw [List.filter_eq_self]
  intro r hr
  simp [optionReports_key get cast keyword map r hr]

end MissingFeatures
end Opm

set_option maxRecDepth 400000

namespace Opm
namespace MissingFeatures

/-- C3: for every deck, the SIMULATOR_KEYWORD_NOT_SUPPORTED errors that `checkKeywords` hands
to the error guard are, in deck order, exactly one error per keyword occurrence whose name is
a member of the `unsupported_keywords` set and none for any other occurrence (one keyword
alone gives one error or none), also for a name such as CBMOPTS that the source list
holds twice. -/
theorem checkKeywords_reports_unsupported_once (deck : Deck) (eg : ErrorGuard) :
    (checkKeywords deck eg).filter
        (fun r => decide (r.key = ErrorKey.SIMULATOR_KEYWORD_NOT_SUPPORTED))
      = eg.filter (fun r => decide (r.key = ErrorKey.SIMULATOR_KEYWORD_NOT_SUPPORTED))
        ++ (deck.filter (fun kw => decide (kw.name ∈ unsupported_keywords_init))).map
            (fun kw => ⟨ErrorKey.SIMULATOR_KEYWORD_NOT_SUPPORTED, keywordMsg kw⟩)
    ∧ (∀ kw : DeckKeyword,
        ((checkKeywords [kw] []).filter
          (fun r => decide (r.key = ErrorKey.SIMULATOR_KEYWORD_NOT_SUPPORTED))).length
          = if kw.name ∈ unsupported_keywords_init then 1 else 0)
    ∧ unsupported_keywords_init.count "CBMOPTS" = 2 := by
  have key : ∀ kw : DeckKeyword,
      (keywordReports kw).filter
          (fun r => decide (r.key = ErrorKey.SIMULATOR_KEYWORD_NOT_SUPPORTED))
        = if kw.name ∈ unsupported_keywords_init then
            [⟨ErrorKey.SIMULATOR_KEYWORD_NOT_SUPPORTED, keywordMsg kw⟩] else [] := by
    intro kw
    unfold keywordReports
    rw [List.filter_append, List.filter_append, filter_notSupported_optionReports,
      filter_notSupported_optionReports]
    by_cases h : kw.name ∈ unsupported_keywords_init
    · have h2 : isUnsupported kw.name = true := by
        simpa [isUnsupported, List.contains_iff_exists_mem_beq] using h
      simp [h, h2]
    · have h2 : isUnsupported kw.name = false := by
        simpa [isUnsupported, List.contains_iff_exists_mem_beq] using h
      simp [h, h2]
  have all : ∀ (d : Deck),
      (d.flatMap keywordReports).filter
          (fun r => decide (r.key = ErrorKey.SIMULATOR_KEYWORD_NOT_SUPPORTED))
        = (d.filter (fun kw => decide (kw.name ∈ unsupported_keywords_init))).map
            (fun kw => ⟨ErrorKey.SIMULATOR_KEYWORD_NOT_SUPPORTED, keywordMsg kw⟩) := by
    intro d
    induction d with
    | nil => simp
    | cons k t ih =>
      rw [List.flatMap_cons, List.filter_append, ih, key k]
      by_cases h : k.name ∈ unsupported_keywords_init
      · simp [h]
      · simp [h]
  refine ⟨?_, ?_, ?_⟩
  · rw [checkKeywords_eq, List.filter_append, all]
  · intro kw
    rw [checkKeywords_eq, List.nil_append, all]
    by_cases h : kw.name ∈ unsupported_keywords_init
    · simp [h]
    · simp [h]
  · decide

/-- C4: the names DIFFUSE, DIFFX, FOAMFSO, FOAMFST, SWINGFAC, TEMP, WELOPENL and WELPI are
written in the source list of keywords not supported by flow, but a comma is missing after
DIFFUSE, FOAMFSO, SWINGFAC and WELOPENL, so the set holds the joined literals instead and
none of the eight names; a deck holding one keyword of each name gets no error at all. -/
theorem checkKeywords_misses_joined_names :
    (∀ n ∈ ["DIFFUSE", "DIFFX", "FOAMFSO", "FOAMFST", "SWINGFAC", "TEMP", "WELOPENL", "WELPI"],
        isUnsupported n = false)
    ∧ (∀ n ∈ ["DIFFUSEDIFFX", "FOAMFSOFOAMFST", "SWINGFACTEMP", "WELOPENLWELPI"],
        isUnsupported n = true)
    ∧ checkKeywords joinedNamesDeck [] = [] := by
  refine ⟨by decide, by decide, by decide⟩

/-- C5: the SIMULATOR_KEYWORD_ITEM_NOT_SUPPORTED errors that `checkKeywords` hands to the
error guard are, keyword by keyword in deck order, the errors of `itemErrorsSpec`: for
COMPORD, ENDSCALE, PINCH and EHYSTR one error per registered item whose first value in
record 0 differs from the supported value, and none for a keyword of any other name. -/
theorem checkKeywords_item_errors (deck : Deck) (eg : ErrorGuard) :
    (checkKeywords deck eg).filter
        (fun r => decide (r.key = ErrorKey.SIMULATOR_KEYWORD_ITEM_NOT_SUPPORTED))
      = eg.filter (fun r => decide (r.key = ErrorKey.SIMULATOR_KEYWORD_ITEM_NOT_SUPPORTED))
        ++ deck.flatMap itemErrorsSpec := by
  have key : ∀ kw : DeckKeyword,
      (keywordReports kw).filter
          (fun r => decide (r.key = ErrorKey.SIMULATOR_KEYWORD_ITEM_NOT_SUPPORTED))
        = itemErrorsSpec kw := by
    intro kw
    unfold keywordReports
    rw [List.filter_append, List.filter_append, filter_item_optionReports,
      filter_item_optionReports]
    have h0 : (if isUnsupported kw.name = true then
          [(⟨ErrorKey.SIMULATOR_KEYWORD_NOT_SUPPORTED, keywordMsg kw⟩ : ErrorReport)]
          else []).filter
          (fun r => decide (r.key = ErrorKey.SIMULATOR_KEYWORD_ITEM_NOT_SUPPORTED)) = [] := by
      split <;> simp
    rw [h0, List.nil_append]
    unfold itemErrorsSpec optionReports equalRange string_options int_options addSupported
      stringItemError intItemError
    by_cases h1 : kw.name = "COMPORD"
    · simp [h1, List.filter_cons]
      split <;> simp_all
    by_cases h2 : kw.name = "ENDSCALE"
    · simp [h2, List.filter_cons]
      split <;> split <;> simp_all
    by_cases h3 : kw.name = "PINCH"
    · simp [h3, List.filter_cons]
      split <;> split <;> simp_all
    by_cases h4 : kw.name = "EHYSTR"
    · simp [h4, List.filter_cons]
      split <;> simp_all
    · have e1 : ¬ "COMPORD" = kw.name := fun h => h1 h.symm
      have e2 : ¬ "ENDSCALE" = kw.name := fun h => h2 h.symm
      have e3 : ¬ "PINCH" = kw.name := fun h => h3 h.symm
      have e4 : ¬ "EHYSTR" = kw.name := fun h => h4 h.symm
      simp [h1, h2, h3, h4, e1, e2, e3, e4, List.filter_cons]
  rw [checkKeywords_eq, List.filter_append, List.filter_flatMap]
  congr 1
  induction deck with
  | nil => simp
  | cons k t ih => simp [List.flatMap_cons, key k, ih]

end MissingFeatures
end Opm

/-! Theorems: StandardWell.hpp -/

namespace Opm
namespace StandardWell

/-- C1: Schur-complement round trip. With `invDuneD_` the inverse of the well block `D`,
a pair (well deltas, reservoir deltas) solves the full block system exactly when the
reservoir deltas solve the reduced system `A - C D⁻¹ Bᵗ` and the well deltas are their
back-substitution `D⁻¹ (resWell - Bᵗ dres)`: elimination followed by back-substitution gives
the same reservoir and well solutions as the full system. -/
theorem WellSystem.schur_round_trip {nr : Nat} (w : WellSystem nr)
    (hD : w.D * w.invDuneD_ = 1) (dwell : Fin numWellEq → ℚ) (dres : Fin nr → ℚ) :
    w.solvesFull dwell dres ↔ (w.solvesReduced dres ∧ dwell = w.backSubstitute dres) := by
  have hD2 : w.invDuneD_ * w.D = 1 := (Matrix.mul_eq_one_comm).1 hD
  unfold WellSystem.solvesFull WellSystem.solvesReduced WellSystem.backSubstitute
    WellSystem.reducedOperator WellSystem.reducedResidual
  constructor
  · rintro ⟨h1, h2⟩
    have hw : dwell = w.invDuneD_.mulVec (w.resWell_ - w.duneB_.transpose.mulVec dres) := by
      rw [← h1, add_sub_cancel_right, Matrix.mulVec_mulVec, hD2, Matrix.one_mulVec]
    refine ⟨?_, hw⟩
    rw [← h2, hw, Matrix.sub_mulVec, ← Matrix.mulVec_mulVec, ← Matrix.mulVec_mulVec,
      ← Matrix.mulVec_mulVec]
    simp only [Matrix.mulVec_sub]
    abel
  · rintro ⟨h1, h2⟩
    constructor
    · rw [h2, Matrix.mulVec_mulVec, hD, Matrix.one_mulVec]
      abel
    · rw [h2]
      rw [Matrix.sub_mulVec, ← Matrix.mulVec_mulVec, ← Matrix.mulVec_mulVec,
        ← Matrix.mulVec_mulVec] at h1
      simp only [Matrix.mulVec_sub]
      rw [sub_eq_iff_eq_add] at h1
      rw [h1]
      abel

/-- C2: with cross-flow disallowed, a producer perforation whose cell pressure is below
`bhp + cdp`, or an injector perforation whose cell pressure is above it, gets every component
rate of `cq_s` equal to zero (value and derivatives), one rate per component. -/
theorem computePerfRate_cross_flow_zero (wellType : WellType) (pressure : EvalWell)
    (upwindRates : EvalWell → List EvalWell) (bhp : EvalWell) (cdp : ℚ)
    (cq_s : List EvalWell)
    (h : (wellType = WellType.PRODUCER ∧ pressure.value < bhp.value + cdp)
      ∨ (wellType = WellType.INJECTOR ∧ bhp.value + cdp < pressure.value)) :
    (computePerfRate wellType pressure upwindRates bhp cdp false cq_s).length = cq_s.length
    ∧ ∀ r ∈ computePerfRate wellType pressure upwindRates bhp cdp false cq_s,
        r.value = 0 ∧ ∀ k, r.derivatives k = 0 := by
  have hz : computePerfRate wellType pressure upwindRates bhp cdp false cq_s
      = cq_s.map (fun _ => Evaluation.const 0) := by
    unfold computePerfRate
    simp only [Evaluation.sub, Evaluation.addScalar]
    rcases h with ⟨ht, hp⟩ | ⟨ht, hp⟩
    · have h1 : ¬ (0 < pressure.value - (bhp.value + cdp)) := by linarith
      have h2 : pressure.value - (bhp.value + cdp) < 0 := by linarith
      simp [h1, h2, ht]
    · have h1 : 0 < pressure.value - (bhp.value + cdp) := by linarith
      simp [h1, ht]
  rw [hz]
  refine ⟨by simp, ?_⟩
  intro r hr
  rcases List.mem_map.1 hr with ⟨_, _, rfl⟩
  exact ⟨rfl, fun _ => rfl⟩

end StandardWell

/-! Theorems: AquiferFetkovich.hpp -/

namespace AquiferFetkovich

variable {n : Nat}

theorem getAt_eq_ok {α : Type} {v : List α} {idx : Nat} {x : α} (h : v[idx]? = some x) :
    getAt v idx = .ok x := by
  unfold getAt
  rw [h]

theorem endTimeStepBody_pressure (sim : Simulator) (s : AquiferFetkovich n)
    (Qai : Evaluation n) :
    (endTimeStepBody sim s Qai).aquifer_pressure_
      = aquiferPressure (endTimeStepBody sim s Qai) := rfl

theorem foldl_endTimeStepBody_const (sim : Simulator) (l : List (Evaluation n))
    (s : AquiferFetkovich n) :
    (l.foldl (endTimeStepBody sim) s).pa0_ = s.pa0_
    ∧ (l.foldl (endTimeStepBody sim) s).aqufetp_data_ = s.aqufetp_data_
    ∧ (l.foldl (endTimeStepBody sim) s).Qai_ = s.Qai_ := by
  induction l generalizing s with
  | nil => simp
  | cons a t ih =>
    rw [List.foldl_cons]
    obtain ⟨h1, h2, h3⟩ := ih (endTimeStepBody sim s a)
    exact ⟨h1, h2, h3⟩

theorem foldl_endTimeStepBody_flux (sim : Simulator) (l : List (Evaluation n))
    (s : AquiferFetkovich n) :
    (l.foldl (endTimeStepBody sim) s).W_flux_.value
        = s.W_flux_.value + sim.timeStepSize * (l.map (fun q => q.value)).sum
    ∧ ∀ k, (l.foldl (endTimeStepBody sim) s).W_flux_.derivatives k
        = s.W_flux_.derivatives k
          + sim.timeStepSize * (l.map (fun q => q.derivatives k)).sum := by
  induction l generalizing s with
  | nil => simp
  | cons a t ih =>
    rw [List.foldl_cons]
    obtain ⟨h1, h2⟩ := ih (endTimeStepBody sim s a)
    constructor
    · rw [h1]
      simp only [endTimeStepBody, Evaluation.add, Evaluation.mulScalar, List.map_cons,
        List.sum_cons]
      ring
    · intro k
      rw [h2 k]
      simp only [endTimeStepBody, Evaluation.add, Evaluation.mulScalar, List.map_cons,
        List.sum_cons]
      ring

/-- C6: for an index inside the vectors, `calculateInflowRate(idx, simulator)` returns and
sets `Qai_[idx]` to Eq 5.14, `alphai_[idx] * J * dp * (1 - exp(-x)) / x` with
`x = timeStepSize / Tc_` and
`dp = aquifer_pressure_ - pressure_current_[idx] + rhow_[idx] * gravity * (cell_depth_[idx] - d0)`,
in value and in every derivative; every other entry of `Qai_` and every other member is
unchanged. -/
theorem calculateInflowRate_eq (exp : ℚ → ℚ) (s : AquiferFetkovich n) (idx : Nat)
    (simulator : Simulator) (alphai depth : ℚ) (p rhow : Evaluation n)
    (ha : s.alphai_[idx]? = some alphai) (hp : s.pressure_current_[idx]? = some p)
    (hr : s.rhow_[idx]? = some rhow) (hd : s.cell_depth_[idx]? = some depth)
    (hq : idx < s.Qai_.length) :
    ∃ s', calculateInflowRate exp s idx simulator = .ok s'
      ∧ s'.Qai_[idx]? = some (inflowRateSpec exp alphai s.aqufetp_data_.J
          (simulator.timeStepSize / s.Tc_)
          (dpSpec s.aquifer_pressure_ p rhow s.gravity_ depth s.aqufetp_data_.d0))
      ∧ (∀ j, j ≠ idx → s'.Qai_[j]? = s.Qai_[j]?)
      ∧ s'.Qai_.length = s.Qai_.length
      ∧ s' = { s with Qai_ := s'.Qai_ } := by
  have hdp : dpai s idx = .ok ((Evaluation.scalarSub s.aquifer_pressure_ p).add
        ((rhow.mulScalar s.gravity_).mulScalar (depth - s.aqufetp_data_.d0))) := by
    unfold dpai
    rw [getAt_eq_ok hp, getAt_eq_ok hr, getAt_eq_ok hd]
    rfl
  let q : Evaluation n :=
    (Evaluation.scalarMul (alphai * s.aqufetp_data_.J)
        ((Evaluation.scalarSub s.aquifer_pressure_ p).add
          ((rhow.mulScalar s.gravity_).mulScalar (depth - s.aqufetp_data_.d0)))).mulScalar
      ((1 - exp (-(simulator.timeStepSize / s.Tc_))) / (simulator.timeStepSize / s.Tc_))
  refine ⟨{ s with Qai_ := s.Qai_.set idx q }, ?_, ?_, ?_, ?_, rfl⟩
  · unfold calculateInflowRate
    rw [getAt_eq_ok ha, hdp]
    simp only [setAt, hq, if_true]
    rfl
  · simp only [List.getElem?_set_self hq, Option.some.injEq]
    unfold inflowRateSpec dpSpec
    simp only [q, Evaluation.scalarMul, Evaluation.mulScalar, Evaluation.add,
      Evaluation.scalarSub, Evaluation.mk.injEq]
    constructor
    · ring
    · funext k
      ring
  · intro j hj
    simp only
    rw [List.getElem?_set_ne (Ne.symm hj)]
  · simp

/-- C7: after `endTimeStep` on an aquifer with at least one connection (`Qai_` has one entry
per connection), `aquifer_pressure_` is Eq 5.12 at the updated cumulative influx,
`pa0_ - W_flux_.value / (C_t * V0)`, whatever it was before; `pa0_` and the aquifer data are
those before the call. -/
theorem endTimeStep_aquifer_pressure (sim : Simulator) (s : AquiferFetkovich n)
    (h : s.Qai_ ≠ []) :
    (endTimeStep sim s).aquifer_pressure_
        = s.pa0_ - (endTimeStep sim s).W_flux_.value
            / (s.aqufetp_data_.C_t * s.aqufetp_data_.V0)
    ∧ (endTimeStep sim s).pa0_ = s.pa0_
    ∧ (endTimeStep sim s).aqufetp_data_ = s.aqufetp_data_ := by
  obtain ⟨c1, c2, _⟩ := foldl_endTimeStepBody_const sim s.Qai_ s
  refine ⟨?_, c1, c2⟩
  unfold endTimeStep at *
  rcases List.eq_nil_or_concat s.Qai_ with h0 | ⟨l, a, hl⟩
  · exact absurd h0 h
  · rw [hl, List.concat_eq_append, List.foldl_append, List.foldl_cons, List.foldl_nil, endTimeStepBody_pressure]
    obtain ⟨d1, d2, _⟩ := foldl_endTimeStepBody_const sim l s
    unfold aquiferPressure
    have e1 : (endTimeStepBody sim (List.foldl (endTimeStepBody sim) s l) a).pa0_
        = (List.foldl (endTimeStepBody sim) s l).pa0_ := rfl
    have e2 : (endTimeStepBody sim (List.foldl (endTimeStepBody sim) s l) a).aqufetp_data_
        = (List.foldl (endTimeStepBody sim) s l).aqufetp_data_ := rfl
    simp only [e1, e2, d1, d2]

/-- C8: `endTimeStep` is the incremental update of the cumulative influx: `W_flux_` after
the call is `W_flux_` before the call plus `timeStepSize` times the sum of all entries of
`Qai_`, in value and in every derivative. -/
theorem endTimeStep_W_flux (sim : Simulator) (s : AquiferFetkovich n) :
    (endTimeStep sim s).W_flux_.value
        = s.W_flux_.value + sim.timeStepSize * (s.Qai_.map (fun q => q.value)).sum
    ∧ ∀ k, (endTimeStep sim s).W_flux_.derivatives k
        = s.W_flux_.derivatives k
          + sim.timeStepSize * (s.Qai_.map (fun q => q.derivatives k)).sum :=
  foldl_endTimeStepBody_flux sim s.Qai_ s

/-- C10: `assignRestartData(xaq)` throws exactly when `xaq.type` is not Fetkovich; the state
after a throwing call is the state before it, and the state after a call that does not throw
is the old one with `aquifer_pressure_` replaced by `xaq.pressure` and nothing else
changed. -/
theorem assignRestartData_spec (s : AquiferFetkovich n) (xaq : AquiferData) :
    ((∃ e, (assignRestartData s xaq).1 = .error e) ↔ xaq.type ≠ AquiferType.Fetkovich)
    ∧ ((assignRestartData s xaq).1 = .ok () ↔ xaq.type = AquiferType.Fetkovich)
    ∧ (assignRestartData s xaq).2
        = (if xaq.type = AquiferType.Fetkovich then
            { s with aquifer_pressure_ := xaq.pressure } else s)
    ∧ (assignRestartData s xaq).2.aquifer_pressure_
        = (if xaq.type = AquiferType.Fetkovich then xaq.pressure else s.aquifer_pressure_) := by
  unfold assignRestartData
  by_cases h : xaq.type = AquiferType.Fetkovich
  · simp [h]
  · simp [h]

end AquiferFetkovich
end Opm

namespace Opm
namespace AquiferFetkovich

variable {n : Nat}

theorem bind_eq_ok {α β : Type} {x : Except String α} {f : α → Except String β} {b : β}
    (h : (x >>= f) = .ok b) : ∃ a, x = .ok a ∧ f a = .ok b := by
  cases x with
  | error e => simp [bind, Except.bind] at h
  | ok a => exact ⟨a, rfl, h⟩

theorem setAt_eq_ok {α : Type} {v v' : List α} {idx : Nat} {x : α}
    (h : setAt v idx x = .ok v') : idx < v.length ∧ v' = v.set idx x := by
  unfold setAt at h
  by_cases hi : idx < v.length
  · simp [hi] at h
    exact ⟨hi, h.symm⟩
  · simp [hi] at h

theorem getAt_ok_iff {α : Type} {v : List α} {idx : Nat} {x : α}
    (h : getAt v idx = .ok x) : v[idx]? = some x := by
  unfold getAt at h
  cases hv : v[idx]? with
  | none => simp [hv] at h
  | some y =>
    simp [hv] at h
    rw [h]

theorem faceLoop_frame (sim : Simulator) (dirs : List FaceDir) (idx : Nat)
    (faces : List (Nat × Int)) (area area' : List ℚ)
    (h : faceLoop sim dirs idx faces area = .ok area') :
    area'.length = area.length ∧ ∀ j, j ≠ idx → area'[j]? = area[j]? := by
  induction faces with
  | nil =>
    simp [faceLoop] at h
    subst h
    simp
  | cons f rest ih =>
    obtain ⟨faceIdx, faceTag⟩ := f
    unfold faceLoop at h
    obtain ⟨d, _, h⟩ := bind_eq_ok h
    obtain ⟨dir, _, h⟩ := bind_eq_ok h
    by_cases hd : d = dir
    · simp only [hd, if_true] at h
      obtain ⟨_, rfl⟩ := setAt_eq_ok h
      refine ⟨by simp, ?_⟩
      intro j hj
      rw [List.getElem?_set_ne (Ne.symm hj)]
    · simp only [hd, if_false] at h
      exact ih h

theorem connectionBody_frame (sim : Simulator) (s : AquiferFetkovich n) (st st1 : ConnLoop)
    (idx : Nat) (h : connectionBody sim s st idx = .ok st1) :
    st1.faceArea_connected_.length = st.faceArea_connected_.length
    ∧ (∀ j, j ≠ idx → st1.faceArea_connected_[j]? = st.faceArea_connected_[j]?)
    ∧ idx < s.connection_.influx_multiplier.length
    ∧ idx < st1.faceArea_connected_.length
    ∧ st1.denom_face_areas = st.denom_face_areas
        + weightTerm s.connection_.influx_multiplier st1.faceArea_connected_ idx := by
  unfold connectionBody at h
  obtain ⟨cart, _, h⟩ := bind_eq_ok h
  obtain ⟨cell_index, _, h⟩ := bind_eq_ok h
  obtain ⟨c2c, _, h⟩ := bind_eq_ok h
  obtain ⟨depth, _, h⟩ := bind_eq_ok h
  obtain ⟨coeff, _, h⟩ := bind_eq_ok h
  obtain ⟨area, harea, h⟩ := bind_eq_ok h
  obtain ⟨mult, hmult, h⟩ := bind_eq_ok h
  obtain ⟨a, ha, h⟩ := bind_eq_ok h
  have hm := getAt_ok_iff hmult
  have haa := getAt_ok_iff ha
  have hfr : area.length = st.faceArea_connected_.length
      ∧ ∀ j, j ≠ idx → area[j]? = st.faceArea_connected_[j]? := by
    cases coeff with
    | none => exact faceLoop_frame sim _ idx _ _ _ harea
    | some c =>
      unfold connectionArea at harea
      obtain ⟨_, rfl⟩ := setAt_eq_ok harea
      refine ⟨by simp, ?_⟩
      intro j hj
      rw [List.getElem?_set_ne (Ne.symm hj)]
  injection h with h
  subst h
  have hlm : idx < s.connection_.influx_multiplier.length := by
    by_contra hc
    rw [List.getElem?_eq_none (not_lt.1 hc)] at hm
    exact Option.noConfusion hm
  have hla : idx < area.length := by
    by_contra hc
    rw [List.getElem?_eq_none (not_lt.1 hc)] at haa
    exact Option.noConfusion haa
  refine ⟨hfr.1, hfr.2, hlm, hla, ?_⟩
  simp only [weightTerm, List.getD_eq_getElem?_getD, hm, haa, Option.getD_some]

theorem connectionLoop_frame (sim : Simulator) (s : AquiferFetkovich n) (idxs : List Nat)
    (hnd : idxs.Nodup) (st st' : ConnLoop) (h : connectionLoop sim s idxs st = .ok st') :
    st'.faceArea_connected_.length = st.faceArea_connected_.length
    ∧ (∀ j, j ∉ idxs → st'.faceArea_connected_[j]? = st.faceArea_connected_[j]?)
    ∧ (∀ idx ∈ idxs, idx < s.connection_.influx_multiplier.length
        ∧ idx < st'.faceArea_connected_.length)
    ∧ st'.denom_face_areas = st.denom_face_areas
        + (idxs.map (weightTerm s.connection_.influx_multiplier st'.faceArea_connected_)).sum := by
  induction idxs generalizing st with
  | nil =>
    simp [connectionLoop] at h
    subst h
    simp
  | cons i rest ih =>
    unfold connectionLoop at h
    obtain ⟨st1, h1, h⟩ := bind_eq_ok h
    obtain ⟨hni, hnr⟩ := List.nodup_cons.1 hnd
    obtain ⟨b1, b2, b3, b4, b5⟩ := connectionBody_frame sim s st st1 i h1
    obtain ⟨r1, r2, r3, r4⟩ := ih hnr st1 h
    have hi : st'.faceArea_connected_[i]? = st1.faceArea_connected_[i]? := r2 i hni
    refine ⟨r1.trans b1, ?_, ?_, ?_⟩
    · intro j hj
      have hj1 : j ≠ i := fun e => hj (e ▸ List.mem_cons_self _ _)
      have hj2 : j ∉ rest := fun e => hj (List.mem_cons_of_mem _ e)
      rw [r2 j hj2, b2 j hj1]
    · intro idx hidx
      rcases List.mem_cons.1 hidx with e | e
      · subst e
        exact ⟨b3, by rw [r1]; exact b4⟩
      · exact r3 idx e
    · rw [r4, b5, List.map_cons, List.sum_cons]
      have : weightTerm s.connection_.influx_multiplier st'.faceArea_connected_ i
          = weightTerm s.connection_.influx_multiplier st1.faceArea_connected_ i := by
        simp only [weightTerm, List.getD_eq_getElem?_getD, hi]
      rw [this]
      ring

theorem alphaLoop_frame (s : AquiferFetkovich n) (area : List ℚ) (denom : ℚ)
    (idxs : List Nat) (hnd : idxs.Nodup) (hm : ∀ idx ∈ idxs,
      idx < s.connection_.influx_multiplier.length ∧ idx < area.length)
    (al al' : List ℚ) (h : alphaLoop s area denom idxs al = .ok al') :
    al'.length = al.length
    ∧ (∀ j, j ∉ idxs → al'[j]? = al[j]?)
    ∧ ∀ idx ∈ idxs, al'[idx]? = some (if denom < eps_sqrt then 0
        else weightTerm s.connection_.influx_multiplier area idx / denom) := by
  induction idxs generalizing al with
  | nil =>
    simp [alphaLoop] at h
    subst h
    simp
  | cons i rest ih =>
    unfold alphaLoop at h
    obtain ⟨v, hv, h⟩ := bind_eq_ok h
    obtain ⟨al1, h1, h⟩ := bind_eq_ok h
    obtain ⟨hni, hnr⟩ := List.nodup_cons.1 hnd
    obtain ⟨hlt, rfl⟩ := setAt_eq_ok h1
    obtain ⟨r1, r2, r3⟩ := ih hnr (fun idx hidx => hm idx (List.mem_cons_of_mem _ hidx)) _ h
    have hvv : v = if denom < eps_sqrt then 0
        else weightTerm s.connection_.influx_multiplier area i / denom := by
      unfold alphaValue at hv
      by_cases hd : denom < eps_sqrt
      · simp only [hd, if_true] at hv ⊢
        injection hv with hv
        exact hv.symm
      · simp only [hd, if_false] at hv ⊢
        obtain ⟨m, hmm, hv⟩ := bind_eq_ok hv
        obtain ⟨a, haa, hv⟩ := bind_eq_ok hv
        injection hv with hv
        rw [← hv]
        simp only [weightTerm, List.getD_eq_getElem?_getD, getAt_ok_iff hmm, getAt_ok_iff haa,
          Option.getD_some]
    refine ⟨by rw [r1]; simp, ?_, ?_⟩
    · intro j hj
      have hj1 : j ≠ i := fun e => hj (e ▸ List.mem_cons_self _ _)
      have hj2 : j ∉ rest := fun e => hj (List.mem_cons_of_mem _ e)
      rw [r2 j hj2, List.getElem?_set_ne (Ne.symm hj1)]
    · intro idx hidx
      rcases List.mem_cons.1 hidx with e | e
      · subst e
        rw [r2 idx hni, List.getElem?_set_self hlt, hvv]
      · exact r3 idx e

end AquiferFetkovich
end Opm

namespace Opm
namespace AquiferFetkovich

variable {n : Nat}

theorem length_resize {α : Type} (v : List α) (count : Nat) (value : α) :
    (resize v count value).length = count := by
  unfold resize
  simp only [List.length_append, List.length_take, List.length_replicate]
  omega

/-- What a successful `initializeConnections` leaves behind, in terms of the state after the
call: the weights are indexed by the connections, and each one is zero below `eps_sqrt` and
its term over the denominator otherwise. -/
theorem initializeConnections_ok (sim : Simulator) (s s' : AquiferFetkovich n)
    (h : initializeConnections sim s = .ok s') :
    s'.connection_ = s.connection_
    ∧ s'.cell_idx_ = s.connection_.global_index
    ∧ s'.faceArea_connected_.length = s'.cell_idx_.length
    ∧ s'.cell_idx_.length ≤ s'.connection_.influx_multiplier.length
    ∧ s'.alphai_ = (List.range s'.cell_idx_.length).map (fun i =>
        if denomFaceAreas s' < eps_sqrt then 0
        else weightTerm s'.connection_.influx_multiplier s'.faceArea_connected_ i
          / denomFaceAreas s') := by
  unfold initializeConnections at h
  obtain ⟨st, hst, h⟩ := bind_eq_ok h
  obtain ⟨al, hal, h⟩ := bind_eq_ok h
  injection h with h
  subst h
  obtain ⟨c1, _, c3, c4⟩ := connectionLoop_frame sim s _ (List.nodup_range _) _ st hst
  rw [length_resize] at c1
  simp only [zero_add] at c4
  obtain ⟨a1, _, a3⟩ := alphaLoop_frame s st.faceArea_connected_ st.denom_face_areas _
    (List.nodup_range _) c3 _ al hal
  rw [length_resize] at a1
  have hden : denomFaceAreas
      ({ s with
          cell_idx_ := s.connection_.global_index
          cell_depth_ := st.cell_depth_
          alphai_ := al
          faceArea_connected_ := st.faceArea_connected_
          cellToConnectionIdx_ := st.cellToConnectionIdx_ } : AquiferFetkovich n)
      = st.denom_face_areas := by
    rw [c4]
    rfl
  refine ⟨rfl, rfl, c1, ?_, ?_⟩
  · show s.connection_.global_index.length ≤ s.connection_.influx_multiplier.length
    by_contra hc
    have hlast := (c3 (s.connection_.global_index.length - 1)
      (List.mem_range.2 (by omega))).1
    omega
  · rw [hden]
    apply List.ext_getElem?
    intro i
    by_cases hi : i < s.connection_.global_index.length
    · rw [a3 i (List.mem_range.2 hi)]
      simp [hi]
    · rw [List.getElem?_eq_none (by rw [a1]; exact not_lt.1 hi),
        List.getElem?_eq_none (by simp only [List.length_map, List.length_range]; exact not_lt.1 hi)]

/-- C9: after a successful `initializeConnections` with the denominator
`denom_face_areas = Σ_i influx_multiplier[i] * faceArea_connected_[i]` at least the square
root of the machine epsilon, there is one weight per connection, every `alphai_[i]` is
`influx_multiplier[i] * faceArea_connected_[i] / denom_face_areas`, the weights sum to
exactly 1, and with non-negative multipliers and areas every weight lies in `[0, 1]`. -/
theorem initializeConnections_alphai (sim : Simulator) (s s' : AquiferFetkovich n)
    (h : initializeConnections sim s = .ok s') (hden : eps_sqrt ≤ denomFaceAreas s') :
    s'.alphai_.length = s'.cell_idx_.length
    ∧ (∀ i (m a : ℚ), i < s'.cell_idx_.length →
        s'.connection_.influx_multiplier[i]? = some m → s'.faceArea_connected_[i]? = some a →
        s'.alphai_[i]? = some (m * a / denomFaceAreas s'))
    ∧ s'.alphai_.sum = 1
    ∧ ((∀ m ∈ s'.connection_.influx_multiplier, 0 ≤ m) →
        (∀ a ∈ s'.faceArea_connected_, 0 ≤ a) →
        ∀ x ∈ s'.alphai_, 0 ≤ x ∧ x ≤ 1) := by
  obtain ⟨_, _, _, _, hal⟩ := initializeConnections_ok sim s s' h
  have hnlt : ¬ denomFaceAreas s' < eps_sqrt := not_lt.2 hden
  simp only [hnlt, if_false] at hal
  have hpos : 0 < denomFaceAreas s' := by
    have : (0 : ℚ) < eps_sqrt := by unfold eps_sqrt; norm_num
    linarith
  refine ⟨?_, ?_, ?_, ?_⟩
  · rw [hal]
    simp
  · intro i m a hi hm ha
    rw [hal]
    simp only [List.getElem?_map, List.getElem?_range hi, Option.map_some',
      weightTerm, List.getD_eq_getElem?_getD, hm, ha, Option.getD_some]
  · rw [hal]
    have : (fun i => weightTerm s'.connection_.influx_multiplier s'.faceArea_connected_ i
          / denomFaceAreas s')
        = (fun i => weightTerm s'.connection_.influx_multiplier s'.faceArea_connected_ i
          * (denomFaceAreas s')⁻¹) := by
      funext i
      rw [div_eq_mul_inv]
    rw [this, List.sum_map_mul_right]
    exact mul_inv_cancel₀ (ne_of_gt hpos)
  · intro hm ha x hx
    rw [hal] at hx
    obtain ⟨i, hi, rfl⟩ := List.mem_map.1 hx
    have hterm : ∀ j, 0 ≤ weightTerm s'.connection_.influx_multiplier s'.faceArea_connected_ j := by
      intro j
      unfold weightTerm
      apply mul_nonneg
      · rw [List.getD_eq_getElem?_getD]
        cases hj : s'.connection_.influx_multiplier[j]? with
        | none => simp
        | some m => exact hm m (List.getElem?_mem hj)
      · rw [List.getD_eq_getElem?_getD]
        cases hj : s'.faceArea_connected_[j]? with
        | none => simp
        | some a => exact ha a (List.getElem?_mem hj)
    have hle : weightTerm s'.connection_.influx_multiplier s'.faceArea_connected_ i
        ≤ denomFaceAreas s' := by
      unfold denomFaceAreas
      apply List.single_le_sum
      · intro y hy
        obtain ⟨j, _, rfl⟩ := List.mem_map.1 hy
        exact hterm j
      · exact List.mem_map.2 ⟨i, hi, rfl⟩
    exact ⟨div_nonneg (hterm i) (le_of_lt hpos), (div_le_one hpos).2 hle⟩

end AquiferFetkovich
end Opm

/-! Theorems: AquiferFetkovich.hpp, connections and equilibrium -/

namespace Opm
namespace AquiferFetkovich

variable {n : Nat}

/-- C18: the guard against a division by zero. After a successful `initializeConnections`
with the denominator `denom_face_areas` below the square root of the machine epsilon (zero,
negative, or no connection at all), every `alphai_[i]` is exactly 0, and the value stored is
0 whatever the multiplier and the area are: the quotient is not formed. -/
theorem initializeConnections_guard (sim : Simulator) (s s' : AquiferFetkovich n)
    (h : initializeConnections sim s = .ok s') (hden : denomFaceAreas s' < eps_sqrt) :
    s'.alphai_ = List.replicate s'.cell_idx_.length 0
    ∧ (∀ a ∈ s'.alphai_, a = 0)
    ∧ (∀ (area : List ℚ) (idx : Nat), alphaValue s area (denomFaceAreas s') idx = .ok 0) := by
  obtain ⟨_, _, _, _, hal⟩ := initializeConnections_ok sim s s' h
  simp only [hden, if_true] at hal
  have hrep : s'.alphai_ = List.replicate s'.cell_idx_.length 0 := by
    rw [hal]
    apply List.ext_getElem?
    intro i
    by_cases hi : i < s'.cell_idx_.length
    · simp [hi, List.getElem?_replicate]
    · simp [hi, List.getElem?_replicate]
  refine ⟨hrep, ?_, ?_⟩
  · intro a ha
    rw [hrep] at ha
    exact (List.mem_replicate.1 ha).2
  · intro area idx
    unfold alphaValue
    rw [if_pos hden]

theorem faceHasDir_of_tag (dir d : FaceDir) (faceIdx : Nat) (faceTag : Int)
    (h : faceDirectionOfTag faceTag = .ok d) :
    faceHasDir dir (faceIdx, faceTag) = decide (d = dir) := by
  unfold faceHasDir
  simp only [h]

theorem faceLoop_spec (sim : Simulator) (dirs : List FaceDir) (idx : Nat) (dir : FaceDir)
    (hdir : dirs[idx]? = some dir) (faces : List (Nat × Int)) (area area' : List ℚ)
    (h : faceLoop sim dirs idx faces area = .ok area') :
    area'[idx]? = match faces.find? (faceHasDir dir) with
      | some f => some (sim.getFaceArea f.1 idx)
      | none => area[idx]? := by
  induction faces with
  | nil =>
    simp [faceLoop] at h
    subst h
    simp
  | cons f rest ih =>
    obtain ⟨faceIdx, faceTag⟩ := f
    unfold faceLoop at h
    obtain ⟨d, hd, h⟩ := bind_eq_ok h
    obtain ⟨dir', hdir', h⟩ := bind_eq_ok h
    have e : dir' = dir := by
      have := getAt_ok_iff hdir'
      rw [hdir] at this
      exact (Option.some.inj this).symm
    subst e
    have hf := faceHasDir_of_tag dir' d faceIdx faceTag hd
    by_cases hdd : d = dir'
    · simp only [hdd, if_true] at h
      obtain ⟨hlt, rfl⟩ := setAt_eq_ok h
      rw [List.find?_cons, hf]
      simp [hdd, List.getElem?_set_self hlt]
    · simp only [hdd, if_false] at h
      rw [List.find?_cons, hf]
      simp only [hdd, decide_False]
      exact ih h

theorem connectionBody_area (sim : Simulator) (s : AquiferFetkovich n) (st st1 : ConnLoop)
    (idx : Nat) (h : connectionBody sim s st idx = .ok st1) :
    ∃ cart cell coeff, s.connection_.global_index[idx]? = some cart
      ∧ s.cartesian_to_compressed_ cart = some cell
      ∧ s.connection_.influx_coeff[idx]? = some coeff
      ∧ connectionArea sim s idx cell st.faceArea_connected_ coeff
          = .ok st1.faceArea_connected_ := by
  unfold connectionBody at h
  obtain ⟨cart, hcart, h⟩ := bind_eq_ok h
  obtain ⟨cell_index, hcell, h⟩ := bind_eq_ok h
  obtain ⟨c2c, _, h⟩ := bind_eq_ok h
  obtain ⟨depth, _, h⟩ := bind_eq_ok h
  obtain ⟨coeff, hcoeff, h⟩ := bind_eq_ok h
  obtain ⟨area, harea, h⟩ := bind_eq_ok h
  obtain ⟨mult, _, h⟩ := bind_eq_ok h
  obtain ⟨a, _, h⟩ := bind_eq_ok h
  injection h with h
  subst h
  refine ⟨cart, cell_index, coeff, getAt_ok_iff hcart, ?_, getAt_ok_iff hcoeff, harea⟩
  unfold compressedAt at hcell
  cases hc : s.cartesian_to_compressed_ cart with
  | none => simp [hc] at hcell
  | some c =>
    simp [hc] at hcell
    rw [hcell]

theorem connectionLoop_area (sim : Simulator) (s : AquiferFetkovich n) (idxs : List Nat)
    (hnd : idxs.Nodup) (st st' : ConnLoop) (h : connectionLoop sim s idxs st = .ok st') :
    ∀ idx ∈ idxs, ∃ area0 area1 cart cell coeff,
      s.connection_.global_index[idx]? = some cart
      ∧ s.cartesian_to_compressed_ cart = some cell
      ∧ s.connection_.influx_coeff[idx]? = some coeff
      ∧ connectionArea sim s idx cell area0 coeff = .ok area1
      ∧ area0[idx]? = st.faceArea_connected_[idx]?
      ∧ st'.faceArea_connected_[idx]? = area1[idx]? := by
  induction idxs generalizing st with
  | nil =>
    intro idx hidx
    cases hidx
  | cons i rest ih =>
    unfold connectionLoop at h
    obtain ⟨st1, h1, hrest⟩ := bind_eq_ok h
    clear h
    obtain ⟨hni, hnr⟩ := List.nodup_cons.1 hnd
    intro idx hidx
    rcases List.mem_cons.1 hidx with e | e
    · subst e
      obtain ⟨cart, cell, coeff, g1, g2, g3, g4⟩ := connectionBody_area sim s st st1 idx h1
      obtain ⟨_, r2, _, _⟩ := connectionLoop_frame sim s rest hnr st1 st' hrest
      exact ⟨st.faceArea_connected_, st1.faceArea_connected_, cart, cell, coeff, g1, g2, g3,
        g4, rfl, r2 idx hni⟩
    · obtain ⟨area0, area1, cart, cell, coeff, g1, g2, g3, g4, g5, g6⟩ :=
        ih hnr st1 hrest idx e
      obtain ⟨_, b2, _, _, _⟩ := connectionBody_frame sim s st st1 i h1
      have hne : idx ≠ i := fun e2 => hni (e2 ▸ e)
      exact ⟨area0, area1, cart, cell, coeff, g1, g2, g3, g4, g5.trans (b2 idx hne), g6⟩

theorem getElem?_resize_nil {α : Type} (count idx : Nat) (value : α) (h : idx < count) :
    (resize ([] : List α) count value)[idx]? = some value := by
  unfold resize
  simp [List.getElem?_replicate, h]

/-- C20: after a successful `initializeConnections` on a newly constructed aquifer (its
`faceArea_connected_` empty before the call), for every connection `idx`: with a given
influx coefficient `faceArea_connected_[idx]` is that coefficient, and the faces of the cell
are not looked at; with a defaulted coefficient it is the area `getFaceArea` of the first
face of the connected cell whose direction is `reservoir_face_dir[idx]`, and it stays 0 when
no face of the cell has that direction. -/
theorem initializeConnections_faceArea (sim : Simulator) (s s' : AquiferFetkovich n)
    (h : initializeConnections sim s = .ok s') (hnew : s.faceArea_connected_ = [])
    (idx : Nat) (hidx : idx < s.connection_.global_index.length) :
    (∀ c, s.connection_.influx_coeff[idx]? = some (some c) →
        s'.faceArea_connected_[idx]? = some c)
    ∧ (∀ cart cell dir, s.connection_.influx_coeff[idx]? = some none →
        s.connection_.global_index[idx]? = some cart →
        s.cartesian_to_compressed_ cart = some cell →
        s.connection_.reservoir_face_dir[idx]? = some dir →
        s'.faceArea_connected_[idx]? = some
          (match (sim.cell2Faces cell).find? (faceHasDir dir) with
            | some f => sim.getFaceArea f.1 idx
            | none => 0))
    ∧ (∀ (sim1 : Simulator) (cell : Nat) (area : List ℚ) (c : ℚ),
        connectionArea sim1 s idx cell area (some c) = setAt area idx c) := by
  have h0 := h
  unfold initializeConnections at h0
  obtain ⟨st, hst, h0⟩ := bind_eq_ok h0
  obtain ⟨al, _, h0⟩ := bind_eq_ok h0
  injection h0 with h0
  subst h0
  obtain ⟨area0, area1, cart, cell, coeff, g1, g2, g3, g4, g5, g6⟩ :=
    connectionLoop_area sim s _ (List.nodup_range _) _ st hst idx (List.mem_range.2 hidx)
  simp only at g5
  rw [hnew, getElem?_resize_nil _ _ _ hidx] at g5
  refine ⟨?_, ?_, fun _ _ _ _ => rfl⟩
  · intro c hc
    rw [g3] at hc
    have hcc : coeff = some c := Option.some.inj hc
    subst hcc
    unfold connectionArea at g4
    obtain ⟨hlt, rfl⟩ := setAt_eq_ok g4
    show st.faceArea_connected_[idx]? = some c
    rw [g6, List.getElem?_set_self hlt]
  · intro cart' cell' dir hc hcart hcell hdir
    rw [g3] at hc
    have hcc : coeff = none := Option.some.inj hc
    subst hcc
    rw [g1] at hcart
    have e1 : cart = cart' := Option.some.inj hcart
    subst e1
    rw [g2] at hcell
    have e2 : cell = cell' := Option.some.inj hcell
    subst e2
    unfold connectionArea at g4
    have hs := faceLoop_spec sim _ idx dir hdir _ _ _ g4
    show st.faceArea_connected_[idx]? = _
    rw [g6, hs]
    cases hfind : (sim.cell2Faces cell).find? (faceHasDir dir) with
    | none => simpa using g5
    | some f => rfl

end AquiferFetkovich
end Opm

/-! Theorems: AquiferFetkovich.hpp, the equilibrium pressure -/

namespace Opm
namespace AquiferFetkovich

variable {n : Nat}

end AquiferFetkovich
end Opm

namespace Opm
namespace AquiferFetkovich

variable {n : Nat}

theorem getAt_of_lt {α : Type} (v : List α) (idx : Nat) (h : idx < v.length) :
    getAt v idx = .ok (v.get ⟨idx, h⟩) :=
  getAt_eq_ok (by simp [h])

end AquiferFetkovich
end Opm

namespace Opm
namespace AquiferFetkovich

variable {n : Nat}

end AquiferFetkovich
end Opm

/-! Theorems: StandardWell.hpp, dimensions and promotion -/

namespace Opm
namespace StandardWell

/-- C11: the number of well equations equals the number of reservoir equations per cell,
`numWellEq = numEq = 3`; the dense blocks `MatrixBlockType` used for `D` are square
`numEq` by `numEq` (equally `numWellEq` by `numWellEq`, nine entries) and the residual
blocks `VectorBlockType` have length `numEq`. -/
theorem numWellEq_eq_numEq :
    numWellEq = numEq ∧ numEq = 3
    ∧ MatrixBlockType = Matrix (Fin numEq) (Fin numEq) ℚ
    ∧ MatrixBlockType = Matrix (Fin numWellEq) (Fin numWellEq) ℚ
    ∧ VectorBlockType = (Fin numEq → ℚ)
    ∧ Fintype.card (Fin numEq × Fin numEq) = 9
    ∧ Fintype.card (Fin numEq) = 3 := by
  refine ⟨rfl, rfl, rfl, rfl, rfl, ?_, ?_⟩
  · simp [numEq]
  · simp [numEq]

/-- C12: a well dual value `EvalWell` carries exactly `numEq + numWellEq = 6` derivative
slots and a reservoir-only dual value `Eval` exactly `numEq = 3`, so `EvalWell` has exactly
`numWellEq` more slots than `Eval`. -/
theorem evalWell_size :
    (∀ e : EvalWell, e.size = numEq + numWellEq ∧ e.size = 6)
    ∧ (∀ e : Eval, e.size = numEq ∧ e.size = 3)
    ∧ (∀ (w : EvalWell) (e : Eval), w.size = e.size + numWellEq)
    ∧ EvalWell = Evaluation 6 ∧ Eval = Evaluation 3 := by
  refine ⟨fun _ => ⟨rfl, rfl⟩, fun _ => ⟨rfl, rfl⟩, fun _ _ => rfl, rfl, rfl⟩

/-- C13: the well unknown vector has exactly three positions, `XvarWell = 0`, `WFrac = 1`
and `GFrac = 2`; they are pairwise distinct and are exactly the indices below `numWellEq`. -/
theorem wellVariablePositions_spec :
    WellVariablePositions.XvarWell.toNat = 0
    ∧ WellVariablePositions.WFrac.toNat = 1
    ∧ WellVariablePositions.GFrac.toNat = 2
    ∧ Function.Injective WellVariablePositions.toNat
    ∧ (∀ i : Nat, i < numWellEq ↔ ∃ p : WellVariablePositions, p.toNat = i) := by
  refine ⟨rfl, rfl, rfl, ?_, ?_⟩
  · intro a b h
    cases a <;> cases b <;> simp [WellVariablePositions.toNat] at h <;> rfl
  · intro i
    constructor
    · intro hi
      have h3 : i < 3 := hi
      interval_cases i
      · exact ⟨.XvarWell, rfl⟩
      · exact ⟨.WFrac, rfl⟩
      · exact ⟨.GFrac, rfl⟩
    · rintro ⟨p, rfl⟩
      cases p <;> simp [WellVariablePositions.toNat, numWellEq, numEq]

/-- C14: `extendEval(in)` has the value of `in`, the `numEq` derivatives of `in` in the same
slots, and zero in every one of the `numWellEq` well-unknown slots after them. -/
theorem extendEval_spec (inp : Eval) :
    (extendEval inp).value = inp.value
    ∧ (∀ i : Fin numEq, (extendEval inp).derivatives (Fin.castAdd numWellEq i)
        = inp.derivatives i)
    ∧ (∀ j : Fin numWellEq, (extendEval inp).derivatives (Fin.natAdd numEq j) = 0) := by
  refine ⟨rfl, ?_, ?_⟩
  · intro i
    simp [extendEval]
  · intro j
    simp [extendEval]

end StandardWell
end Opm

namespace Opm
namespace StandardWell

theorem invertBlock_of_mul_eq_one (D E : MatrixBlockType) (h : D * E = 1) :
    invertBlock D = .ok E := by
  have hdet : D.det * E.det = 1 := by
    rw [← Matrix.det_mul, h, Matrix.det_one]
  have hne : D.det ≠ 0 := by
    intro h0
    rw [h0, zero_mul] at hdet
    exact zero_ne_one hdet
  have hE : E = D⁻¹ := (Matrix.inv_eq_right_inv h).symm
  unfold invertBlock
  rw [if_neg hne, hE, Matrix.inv_def, Ring.inverse_eq_inv']

theorem invertBlock_error_iff (D : MatrixBlockType) :
    (∃ e, invertBlock D = .error e) ↔ D.det = 0 := by
  unfold invertBlock
  by_cases h : D.det = 0
  · simp [h]
  · simp [h]

theorem localInvert_single (D : MatrixBlockType) :
    localInvert [[D]] = (invertBlock D).map (fun E => [[E]]) := by
  unfold localInvert invertRow
  cases h : invertBlock D with
  | error e => rfl
  | ok E => rfl

/-- C17: for the single diagonal block `D` of the well, `localInvert` reports a failure
exactly when `D` is singular (determinant zero, that is: no right inverse exists) and then
returns no matrix; when `D` is invertible it returns the block replaced by its exact
inverse, the matrix `E` with `D * E = 1`. -/
theorem localInvert_spec (D : MatrixBlockType) :
    ((∃ e, localInvert [[D]] = .error e) ↔ D.det = 0)
    ∧ (D.det = 0 ↔ ¬ ∃ E : MatrixBlockType, D * E = 1)
    ∧ (∀ E : MatrixBlockType, D * E = 1 → localInvert [[D]] = .ok [[E]])
    ∧ (D.det ≠ 0 → ∃ E : MatrixBlockType, localInvert [[D]] = .ok [[E]] ∧ D * E = 1
        ∧ E * D = 1) := by
  have hsing : D.det = 0 ↔ ¬ ∃ E : MatrixBlockType, D * E = 1 := by
    constructor
    · rintro h0 ⟨E, hE⟩
      have hdet : D.det * E.det = 1 := by
        rw [← Matrix.det_mul, hE, Matrix.det_one]
      rw [h0, zero_mul] at hdet
      exact zero_ne_one hdet
    · intro hno
      by_contra hne
      exact hno ⟨D⁻¹, Matrix.mul_nonsing_inv D (isUnit_iff_ne_zero.2 hne)⟩
  have hinv : ∀ E : MatrixBlockType, D * E = 1 → localInvert [[D]] = .ok [[E]] := by
    intro E hE
    rw [localInvert_single, invertBlock_of_mul_eq_one D E hE]
    rfl
  refine ⟨?_, hsing, hinv, ?_⟩
  · rw [localInvert_single, ← invertBlock_error_iff]
    cases h : invertBlock D with
    | error e => simp [Except.map]
    | ok E => simp [Except.map]
  · intro hne
    have hu : IsUnit D.det := isUnit_iff_ne_zero.2 hne
    exact ⟨D⁻¹, hinv _ (Matrix.mul_nonsing_inv D hu), Matrix.mul_nonsing_inv D hu,
      Matrix.nonsing_inv_mul D hu⟩

end StandardWell
end Opm

namespace Opm

namespace StandardWell

/-- Witness for C1: the example well system has `invDuneD_` the inverse of `D`. -/
theorem WellSystem.schur_round_trip_witness :
    exampleWellSystem.D * exampleWellSystem.invDuneD_ = 1
    ∧ (exampleWellSystem.solvesFull (fun _ => 1 / 2) (fun _ => 0)
        ↔ (exampleWellSystem.solvesReduced (fun _ => 0)
          ∧ (fun _ => 1 / 2) = exampleWellSystem.backSubstitute (fun _ => 0))) :=
  ⟨by simp [exampleWellSystem, Matrix.diagonal_mul_diagonal],
    WellSystem.schur_round_trip exampleWellSystem
      (by simp [exampleWellSystem, Matrix.diagonal_mul_diagonal]) (fun _ => 1 / 2) (fun _ => 0)⟩

/-- Witness for C2: a producer whose cell pressure 100 is below `bhp + cdp = 200`. -/
theorem computePerfRate_cross_flow_zero_witness :
    ((WellType.PRODUCER = WellType.PRODUCER
        ∧ (Evaluation.const 100 : EvalWell).value < (Evaluation.const 200 : EvalWell).value + 0)
      ∨ (WellType.PRODUCER = WellType.INJECTOR
        ∧ (Evaluation.const 200 : EvalWell).value + 0 < (Evaluation.const 100 : EvalWell).value))
    ∧ ((computePerfRate WellType.PRODUCER (Evaluation.const 100) (fun d => [d, d, d])
          (Evaluation.const 200) 0 false
          [Evaluation.const 5, Evaluation.const 6, Evaluation.const 7]).length
        = [(Evaluation.const 5 : EvalWell), Evaluation.const 6, Evaluation.const 7].length
      ∧ ∀ r ∈ computePerfRate WellType.PRODUCER (Evaluation.const 100) (fun d => [d, d, d])
          (Evaluation.const 200) 0 false
          [Evaluation.const 5, Evaluation.const 6, Evaluation.const 7],
        r.value = 0 ∧ ∀ k, r.derivatives k = 0) :=
  ⟨Or.inl ⟨rfl, by norm_num [Evaluation.const]⟩,
    computePerfRate_cross_flow_zero WellType.PRODUCER (Evaluation.const 100)
      (fun d => [d, d, d]) (Evaluation.const 200) 0
      [Evaluation.const 5, Evaluation.const 6, Evaluation.const 7]
      (Or.inl ⟨rfl, by norm_num [Evaluation.const]⟩)⟩

end StandardWell

namespace AquiferFetkovich

/-- Witness for C6: connection 0 of the initialised example aquifer. -/
theorem calculateInflowRate_eq_witness :
    ∃ s', calculateInflowRate (fun _ => 0) exampleAquiferInit 0 exampleSimulator = .ok s'
      ∧ s'.Qai_[0]? = some (inflowRateSpec (fun _ => 0) (1 / 4)
          exampleAquiferInit.aqufetp_data_.J
          (exampleSimulator.timeStepSize / exampleAquiferInit.Tc_)
          (dpSpec exampleAquiferInit.aquifer_pressure_ ⟨90, fun _ => 1⟩ ⟨1, fun _ => 0⟩
            exampleAquiferInit.gravity_ 10 exampleAquiferInit.aqufetp_data_.d0))
      ∧ (∀ j, j ≠ 0 → s'.Qai_[j]? = exampleAquiferInit.Qai_[j]?)
      ∧ s'.Qai_.length = exampleAquiferInit.Qai_.length
      ∧ s' = { exampleAquiferInit with Qai_ := s'.Qai_ } :=
  calculateInflowRate_eq (fun _ => 0) exampleAquiferInit 0 exampleSimulator (1 / 4) 10
    ⟨90, fun _ => 1⟩ ⟨1, fun _ => 0⟩ rfl rfl rfl rfl (by decide)

/-- Witness for C7: the example aquifer has two entries in `Qai_`. -/
theorem endTimeStep_aquifer_pressure_witness :
    exampleAquifer.Qai_ ≠ []
    ∧ ((endTimeStep exampleSimulator exampleAquifer).aquifer_pressure_
        = exampleAquifer.pa0_ - (endTimeStep exampleSimulator exampleAquifer).W_flux_.value
            / (exampleAquifer.aqufetp_data_.C_t * exampleAquifer.aqufetp_data_.V0)
      ∧ (endTimeStep exampleSimulator exampleAquifer).pa0_ = exampleAquifer.pa0_
      ∧ (endTimeStep exampleSimulator exampleAquifer).aqufetp_data_
          = exampleAquifer.aqufetp_data_) :=
  ⟨by simp [exampleAquifer],
    endTimeStep_aquifer_pressure exampleSimulator exampleAquifer (by simp [exampleAquifer])⟩

/-- Witness for C9: the example aquifer initialises to weights 1/4 and 3/4 with
denominator 20. -/
theorem initializeConnections_alphai_witness :
    initializeConnections exampleSimulator exampleAquifer = .ok exampleAquiferInit
    ∧ eps_sqrt ≤ denomFaceAreas exampleAquiferInit
    ∧ exampleAquiferInit.alphai_.sum = 1 :=
  have h1 : initializeConnections exampleSimulator exampleAquifer = .ok exampleAquiferInit := by
    simp [initializeConnections, exampleSimulator, exampleAquifer, exampleAquiferInit,
      connectionLoop, connectionBody, alphaLoop, alphaValue, resize, getAt, setAt,
      compressedAt, connectionArea, faceLoop, faceDirectionOfTag, List.range,
      List.range.loop, bind, Except.bind, eps_sqrt]
    norm_num
  have h2 : eps_sqrt ≤ denomFaceAreas exampleAquiferInit := by
    norm_num [eps_sqrt, denomFaceAreas, exampleAquiferInit, exampleAquifer, weightTerm,
      List.range, List.range.loop]
  ⟨h1, h2,
    (initializeConnections_alphai exampleSimulator exampleAquifer exampleAquiferInit h1 h2).2.2.1⟩

end AquiferFetkovich

end Opm

namespace Opm

namespace StandardWell

/-- Witness for C17: the block `2 I` is replaced by its inverse `(1/2) I`. -/
theorem localInvert_spec_witness :
    (Matrix.diagonal (fun _ => 2) : MatrixBlockType) * Matrix.diagonal (fun _ => 1 / 2) = 1
    ∧ localInvert [[(Matrix.diagonal (fun _ => 2) : MatrixBlockType)]]
        = .ok [[Matrix.diagonal (fun _ => 1 / 2)]] :=
  have h : (Matrix.diagonal (fun _ => 2) : MatrixBlockType)
      * Matrix.diagonal (fun _ => 1 / 2) = 1 := by
    simp [Matrix.diagonal_mul_diagonal]
  ⟨h, (localInvert_spec (Matrix.diagonal (fun _ => 2))).2.2.1 _ h⟩

end StandardWell

namespace AquiferFetkovich

/-- Witness for C18: the aquifer without a matching face has denominator 0 and weight 0. -/
theorem initializeConnections_guard_witness :
    initializeConnections exampleSimulator exampleAquiferNoFace = .ok exampleAquiferNoFaceInit
    ∧ denomFaceAreas exampleAquiferNoFaceInit < eps_sqrt
    ∧ exampleAquiferNoFaceInit.alphai_
        = List.replicate exampleAquiferNoFaceInit.cell_idx_.length 0 :=
  have h1 : initializeConnections exampleSimulator exampleAquiferNoFace
      = .ok exampleAquiferNoFaceInit := by
    simp [initializeConnections, exampleSimulator, exampleAquiferNoFace, exampleAquifer,
      exampleAquiferNoFaceInit, connectionLoop, connectionBody, alphaLoop, alphaValue, resize,
      getAt, setAt, compressedAt, connectionArea, faceLoop, faceDirectionOfTag, List.range,
      List.range.loop, bind, Except.bind, eps_sqrt]
  have h2 : denomFaceAreas exampleAquiferNoFaceInit < eps_sqrt := by
    norm_num [eps_sqrt, denomFaceAreas, exampleAquiferNoFaceInit, exampleAquiferNoFace,
      exampleAquifer, weightTerm, List.range, List.range.loop]
  ⟨h1, h2,
    (initializeConnections_guard exampleSimulator exampleAquiferNoFace
      exampleAquiferNoFaceInit h1 h2).1⟩

/-- Witness for C20: connection 0 of the example aquifer, with a defaulted coefficient on
the Z+ face of its cell, and its given-coefficient clause. -/
theorem initializeConnections_faceArea_witness :
    initializeConnections exampleSimulator exampleAquifer = .ok exampleAquiferInit
    ∧ exampleAquifer.faceArea_connected_ = []
    ∧ 0 < exampleAquifer.connection_.global_index.length
    ∧ exampleAquiferInit.faceArea_connected_[0]? = some
        (match (exampleSimulator.cell2Faces 0).find? (faceHasDir FaceDir.ZPlus) with
          | some f => exampleSimulator.getFaceArea f.1 0
          | none => 0) :=
  have h1 : initializeConnections exampleSimulator exampleAquifer = .ok exampleAquiferInit := by
    simp [initializeConnections, exampleSimulator, exampleAquifer, exampleAquiferInit,
      connectionLoop, connectionBody, alphaLoop, alphaValue, resize, getAt, setAt,
      compressedAt, connectionArea, faceLoop, faceDirectionOfTag, List.range,
      List.range.loop, bind, Except.bind, eps_sqrt]
    norm_num
  have h2 : exampleAquifer.faceArea_connected_ = [] := rfl
  have h3 : 0 < exampleAquifer.connection_.global_index.length := by decide
  ⟨h1, h2, h3,
    (initializeConnections_faceArea exampleSimulator exampleAquifer exampleAquiferInit h1 h2
      0 h3).2.1 7 0 FaceDir.ZPlus rfl rfl rfl rfl⟩

end AquiferFetkovich

end Opm
